import Mathlib

/-!
Verification of the market-health-cli core against its specification.

The Python sources are shallowly embedded:
* floats are modelled as `Option ℚ` (`none` = NaN); any comparison with
  `none` is `false`, mirroring IEEE comparisons with NaN;
* division by zero yields `none` (Python floats give `±inf` there; every
  place this matters the `±inf` value falls into the same score bucket as
  NaN, which is noted at the definition concerned);
* pandas frames become lists of bars; column-name resolution (the
  SeriesAccess layer) is abstracted away since no claim concerns it;
* machine integers are `ℤ`/`ℕ` (scores are tiny, no overflow in Python);
* fallible code returns `Except`.
-/

set_option maxRecDepth 10000

namespace MarketHealth

/-! ## Rating classifier (market_health/rating.py and the copy embedded in
market_ui.render_pi_grid; the two implementations are textually identical). -/

/-- Four cut points, the embedding of the 4-element Python list
`[c1, c2, c3, c4]` returned by the bounds functions. -/
structure Bounds where
  c1 : ℤ
  c2 : ℤ
  c3 : ℤ
  c4 : ℤ
deriving DecidableEq, Repr

/-- rating.py `fixed_bounds` / market_ui `_fixed_bounds`: 4 cut points, 5 bands. -/
def fixed_bounds : Bounds := ⟨20, 40, 60, 80⟩

/-- Python `round` on an exact rational: round half to even.  (Python rounds
the nearest double; at exact ties the double may differ from the rational -
no claim depends on a tie case.) -/
def pyRound (q : ℚ) : ℤ :=
  let f := ⌊q⌋
  let r := q - f
  if r < 1/2 then f
  else if r > 1/2 then f + 1
  else if f % 2 = 0 then f else f + 1

/-- rating.py `quantile_bounds` inner `pct`: nearest-rank value
`xs[max(0, min(len(xs)-1, round((p/100)*(len(xs)-1))))]` from the sorted
cross-section `xs`. -/
def pctRank (xs : List ℤ) (p : ℕ) : ℤ :=
  let k : ℤ := max 0 (min (xs.length - 1) (pyRound ((p : ℚ) / 100 * ((xs.length : ℚ) - 1))))
  xs.getD k.toNat 0

/-- rating.py `quantile_bounds`: sort the non-None scores; empty input falls
back to the fixed bounds; otherwise take the nearest-rank value at each
requested percentile.  `qs` embeds the 4-tuple of percentiles. -/
def quantile_bounds (scores : List (Option ℤ)) (qs : ℕ × ℕ × ℕ × ℕ) : Bounds :=
  let xs := (scores.reduceOption).insertionSort (· ≤ ·)
  if xs = [] then fixed_bounds
  else ⟨pctRank xs qs.1, pctRank xs qs.2.1, pctRank xs qs.2.2.1, pctRank xs qs.2.2.2⟩

/-- Hybrid clamp of one quantile cut toward its fixed cut:
`max(fi - guard, min(fi + guard, qi))`. -/
def hybridClamp (guard fi qi : ℤ) : ℤ := max (fi - guard) (min (fi + guard) qi)

/-- rating.py `choose_bounds` / market_ui `_choose_bounds`: `"fixed"` returns
the fixed cuts, `"quantile"` the quantile cuts, anything else (the default
`"hybrid"`) the quantile cuts clamped within `±guard` of the fixed cuts. -/
def choose_bounds (scores : List (Option ℤ)) (scheme : String)
    (qs : ℕ × ℕ × ℕ × ℕ) (guard : ℤ) : Bounds :=
  let f := fixed_bounds
  if scheme = "fixed" then f
  else
    let qb := quantile_bounds scores qs
    if scheme = "quantile" then qb
    else ⟨hybridClamp guard f.c1 qb.c1, hybridClamp guard f.c2 qb.c2,
          hybridClamp guard f.c3 qb.c3, hybridClamp guard f.c4 qb.c4⟩

/-- market_ui `_band_index` (identical to the index chain in rating.py
`label_for`): left-closed bands. -/
def band_index (score : ℤ) (b : Bounds) : ℕ :=
  if score < b.c1 then 0
  else if score < b.c2 then 1
  else if score < b.c3 then 2
  else if score < b.c4 then 3
  else 4

/-- rating.py `Rating` dataclass. -/
structure Rating where
  label : String
  short : String
  band : ℤ × ℤ
deriving DecidableEq, Repr

/-- rating.py `LABELS`. -/
def LABELS : List (String × String) :=
  [("Strong Sell", "SS"), ("Sell", "S"), ("Hold", "H"), ("Buy", "B"), ("Strong Buy", "SB")]

/-- rating.py `label_for`: pick the band index with the same comparison chain
as `band_index`, then report the label and the inclusive (lo, hi) band. -/
def label_for (score : ℤ) (b : Bounds) : Rating :=
  let i := band_index score b
  let lo := [0, b.c1, b.c2, b.c3, b.c4].getD i 0
  let hi := [b.c1 - 1, b.c2 - 1, b.c3 - 1, b.c4 - 1, 100].getD i 0
  let ls := LABELS.getD i ("", "")
  ⟨ls.1, ls.2, (lo, hi)⟩

/-- market_ui `render_pi_grid` inner `_lower_of_band`:
`0 if i == 0 else cut_points[i-1]`. -/
def lower_of_band (b : Bounds) (i : ℕ) : ℤ :=
  if i = 0 then 0 else [b.c1, b.c2, b.c3, b.c4].getD (i - 1) 0

/-- The hysteresis commit logic of market_ui `render_pi_grid` for one symbol:
given the hysteresis threshold, the last committed band for the symbol (or
`none` if the symbol has no entry in `LAST_BANDS`), the new raw score and the
cut points, return the band that is committed.  The guard mirrors
`if hysteresis and sym in LAST_BANDS` (truthiness: any nonzero threshold). -/
def commit_band (hysteresis : ℤ) (lastBand : Option ℕ) (pct : ℤ) (b : Bounds) : ℕ :=
  let raw := band_index pct b
  match lastBand with
  | none => raw
  | some lastB =>
    if hysteresis ≠ 0 then
      if raw > lastB then
        if pct ≥ lower_of_band b raw + hysteresis then raw else lastB
      else if raw < lastB then
        if pct < lower_of_band b lastB - hysteresis then raw else lastB
      else lastB
    else raw

/-! ## Numeric model for engine.py

Python floats are modelled as exact fractions.  `Fr` is an executable
rational (numerator over positive denominator); `Option Fr` is a float that
may be NaN (`none`).  Comparisons guard the denominator with `max 1` so that
the order relations are transitive and total on every term of the type; all
fractions actually built by the embedding have a positive denominator, where
the guard is the identity. -/

/-- An executable rational: `num / den`, `den` positive by construction. -/
structure Fr where
  num : ℤ
  den : ℕ
deriving Repr

/-- Integer literal as a fraction. -/
def Fr.I (k : ℤ) : Fr := ⟨k, 1⟩

/-- Sum of two fractions. -/
def Fr.add (a b : Fr) : Fr := ⟨a.num * b.den + b.num * a.den, a.den * b.den⟩

/-- Difference of two fractions. -/
def Fr.sub (a b : Fr) : Fr := ⟨a.num * b.den - b.num * a.den, a.den * b.den⟩

/-- Product of two fractions. -/
def Fr.mul (a b : Fr) : Fr := ⟨a.num * b.num, a.den * b.den⟩

/-- Quotient of two fractions; callers guard `b ≠ 0`, keeping `den` positive. -/
def Fr.div (a b : Fr) : Fr :=
  if 0 ≤ b.num then ⟨a.num * b.den, a.den * b.num.toNat⟩
  else ⟨-(a.num * b.den), a.den * (-b.num).toNat⟩

/-- Absolute value of a fraction. -/
def Fr.abs (a : Fr) : Fr := ⟨|a.num|, a.den⟩

/-- Strict order on fractions by cross-multiplication. -/
def Fr.Lt (a b : Fr) : Prop := a.num * (max 1 b.den : ℕ) < b.num * (max 1 a.den : ℕ)

/-- Non-strict order on fractions by cross-multiplication. -/
def Fr.Le (a b : Fr) : Prop := a.num * (max 1 b.den : ℕ) ≤ b.num * (max 1 a.den : ℕ)

instance : DecidableRel Fr.Lt := fun a b => by unfold Fr.Lt; infer_instance

instance : DecidableRel Fr.Le := fun a b => by unfold Fr.Le; infer_instance

/-- A float series entry: a value or NaN. -/
abbrev Flt := Option Fr

/-- NaN-propagating lift of a binary operation, like float arithmetic. -/
def omap2 (f : Fr → Fr → Fr) : Flt → Flt → Flt
  | some a, some b => some (f a b)
  | _, _ => none

/-- Float addition with NaN. -/
def oadd : Flt → Flt → Flt := omap2 Fr.add

/-- Float subtraction with NaN. -/
def osub : Flt → Flt → Flt := omap2 Fr.sub

/-- Float multiplication with NaN. -/
def omul : Flt → Flt → Flt := omap2 Fr.mul

/-- Float division with NaN; division by zero is modelled as undefined.
(Python floats give `±inf` for `x/0` with `x ≠ 0`; at every use in the
engine an infinite quotient falls in the same score bucket as NaN, noted at
the definition concerned.) -/
def odiv : Flt → Flt → Flt
  | some a, some b => if b.num = 0 then none else some (a.div b)
  | _, _ => none

/-- Float absolute value with NaN. -/
def oabs : Flt → Flt
  | some a => some a.abs
  | none => none

/-- Float `<` as in Python: any comparison with NaN is false. -/
def oblt (a b : Flt) : Bool :=
  match a, b with
  | some x, some y => decide (Fr.Lt x y)
  | _, _ => false

/-- Float `≤` as in Python: any comparison with NaN is false. -/
def oble (a b : Flt) : Bool :=
  match a, b with
  | some x, some y => decide (Fr.Le x y)
  | _, _ => false

/-! ## Series utilities (the pandas operations used by engine.py)

A pandas `Series` becomes `List Flt`; positional alignment models the
shared date index of the frames in one run. -/

/-- A price or volume column. -/
abbrev Series := List Flt

/-- pandas `s.shift(k)`: k leading NaNs, the rest shifted right. -/
def shiftK (k : ℕ) (s : Series) : Series :=
  List.replicate (min k s.length) none ++ s.take (s.length - k)

/-- pandas `s.diff()`: `s - s.shift(1)`. -/
def diffS (s : Series) : Series :=
  List.zipWith osub s (shiftK 1 s)

/-- pandas `s.pct_change(k)`: `s / s.shift(k) - 1` (no forward-fill). -/
def pctChangeK (k : ℕ) (s : Series) : Series :=
  List.zipWith (fun a b => osub (odiv a b) (some (Fr.I 1))) s (shiftK k s)

/-- One step of `ewm(adjust=False).mean()`: NaN input carries the previous
state (exact for NaN-free series; pandas additionally decays weights across
NaNs, which no claim depends on). -/
def ewmStep (oneMinusA a : Fr) (state : Flt) (x : Flt) : Flt :=
  match x with
  | none => state
  | some v =>
    match state with
    | none => some v
    | some y => some ((oneMinusA.mul y).add (a.mul v))

/-- pandas `s.ewm(span=n, adjust=False).mean()` with `alpha = 2/(n+1)`. -/
def ewmMeanSpan (n : ℕ) (s : Series) : Series :=
  (s.scanl (ewmStep ⟨(n : ℤ) - 1, n + 1⟩ ⟨2, n + 1⟩) none).tail

/-- Mean of a list of fractions (callers pass non-empty windows). -/
def meanFr (xs : List Fr) : Fr :=
  (xs.foldl Fr.add (Fr.I 0)).div (Fr.I xs.length)

/-- pandas `s.rolling(n, min_periods=n).agg`: the aggregate of the last `n`
entries at each position, NaN until `n` entries exist or when the window
contains a NaN (`min_periods = n` demands `n` non-NaN observations in an
`n`-wide window, so the whole window must be non-NaN). -/
def rollingApply (n : ℕ) (agg : List Fr → Fr) (s : Series) : Series :=
  (List.range s.length).map (fun i =>
    if n ≤ i + 1 then
      let w := (s.take (i + 1)).drop (i + 1 - n)
      if w.all (·.isSome) then some (agg w.reduceOption) else none
    else none)

/-- engine.py `sma`: `s.rolling(n, min_periods=n).mean()`. -/
def sma (n : ℕ) (s : Series) : Series := rollingApply n meanFr s

/-- pandas `s.rolling(n).max()` (default `min_periods` = window size). -/
def rollingMax (n : ℕ) (s : Series) : Series :=
  rollingApply n (fun xs => xs.foldl (fun a b => if Fr.Le a b then b else a) (xs.headD (Fr.I 0))) s

/-- pandas `s.iloc[-k]` for `k ≥ 1`: NaN when the series is too short
(the sources always guard the length before indexing). -/
def negIdx (s : Series) (k : ℕ) : Flt :=
  if 1 ≤ k ∧ k ≤ s.length then (s.get? (s.length - k)).getD none else none

/-- pandas `s.iloc[-n:]`: the last `n` entries. -/
def tailN {α : Type} (n : ℕ) (s : List α) : List α := s.drop (s.length - n)

/-- engine.py `last`: `s.iloc[-1]` if the series is non-empty else NaN. -/
def lastF (s : Series) : Flt := negIdx s 1

/-- pandas `s.dropna().iloc[-1]`: the last non-NaN value, if any. -/
def lastSome (s : Series) : Flt := s.reduceOption.getLast?

/-- engine.py `pct_change(series, n)`:
`series.iloc[-1] / series.iloc[-1-n] - 1` when `len(series) > n`, else NaN. -/
def pct_change (s : Series) (n : ℕ) : Flt :=
  if n < s.length then osub (odiv (negIdx s 1) (negIdx s (n + 1))) (some (Fr.I 1)) else none

/-! ## Price frames and the category scorers of engine.py -/

/-- Float `>` (`obgt a b` is Python `a > b`; false when either side is NaN). -/
def obgt (a b : Flt) : Bool := oblt b a

/-- Float `>=` (false when either side is NaN). -/
def obge (a b : Flt) : Bool := oble b a

/-- One row of a price table: (Open omitted - unused), High, Low, Close,
Volume; each entry may be NaN. -/
structure Bar where
  close : Flt
  high : Flt
  low : Flt
  volume : Flt

/-- A pandas DataFrame of price history, one `Bar` per timestamp.  Column
resolution (`get_close` / `_pick_field` fallbacks over multi-index frames) is
abstracted: a missing column is a column of NaNs. -/
abbrev Frame := List Bar

/-- engine.py `get_close` (column resolution abstracted). -/
def get_close (df : Frame) : Series := df.map (·.close)

/-- engine.py `get_high`. -/
def get_high (df : Frame) : Series := df.map (·.high)

/-- engine.py `get_low`. -/
def get_low (df : Frame) : Series := df.map (·.low)

/-- engine.py `get_volume`. -/
def get_volume (df : Frame) : Series := df.map (·.volume)

/-- engine.py `ema`: `s.ewm(span=n, adjust=False).mean()`. -/
def ema (s : Series) (n : ℕ) : Series := ewmMeanSpan n s

/-- pandas `.sum()` over a float list: NaNs are skipped, an all-NaN or empty
list sums to 0. -/
def sumSkipna (l : List Flt) : Fr := l.reduceOption.foldl Fr.add (Fr.I 0)

/-- The category keys A-F. -/
inductive CatKey
  | A | B | C | D | E | F
deriving DecidableEq, Repr

/-- The list of all six category keys in order. -/
def catKeys : List CatKey := [.A, .B, .C, .D, .E, .F]

/-- engine.py `CHECK_LABELS` (identical in market_ui.py and make_scores.py). -/
def CHECK_LABELS : CatKey → List String
  | .A => ["News", "Analysts", "Event", "Insiders", "Peers/Macro", "Guidance"]
  | .B => ["Stacked MAs", "RS vs SPY", "BB Mid", "20D Break", "Vol x", "Hold 20EMA"]
  | .C => ["EM Fit", "OI/Flow", "Blocks/DP", "Leaders%>20D", "Money Flow", "SI/Days"]
  | .D => ["ATR%", "IV%", "Correlation", "Event Risk", "Gap Plan", "Sizing/RR"]
  | .E => ["SPY Trend", "Sector Rank", "Breadth", "VIX Regime", "3-Day RS", "Drivers"]
  | .F => ["Trigger", "Invalidation", "Targets", "Time Stop", "Slippage", "Alerts"]

/-- engine.py dataclass `CheckScore` (serialized with `asdict`); also the
shape of the check dicts built literally in the D/A/C scorers. -/
structure CheckScore where
  label : String
  score : ℕ
deriving Repr

/-- engine.py `score_trend_structure` (Category B). -/
def score_trend_structure (df : Frame) (spy_close : Series) : List ℕ :=
  if df.isEmpty then [0, 0, 0, 0, 0, 0]
  else
    let close := get_close df
    if close.length < 60 then [0, 0, 0, 0, 0, 0]
    else
      let high := get_high df
      let vol := get_volume df
      let e9 := ema close 9
      let e20 := ema close 20
      let s50 := sma 50 close
      let mid20 := sma 20 close
      let c1 := if obgt (lastF close) (lastF e9) && obgt (lastF e9) (lastF e20) &&
                   obgt (lastF e20) (lastF s50) then 2
                else if obgt (lastF close) (lastF e20) && obgt (lastF e20) (lastF s50) then 1
                else 0
      let rs5 := osub (pct_change close 5)
        (if 5 < spy_close.length then pct_change spy_close 5 else some (Fr.I 0))
      let c2 := if obgt rs5 (some (Fr.I 0)) then 2
                else if oblt (oabs rs5) (some ⟨2, 1000⟩) then 1 else 0
      let reclaimed := decide (2 ≤ mid20.length) && obgt (negIdx close 1) (negIdx mid20 1) &&
        obgt (negIdx close 2) (negIdx mid20 2)
      let c3 := if reclaimed then 2 else if obgt (lastF close) (lastF mid20) then 1 else 0
      let c4 := if 21 ≤ high.length then
          let prev20_high := negIdx (rollingMax 20 high) 2
          if obgt (lastF close) prev20_high then 2
          else if obgt (lastF close) (lastF mid20) then 1 else 0
        else 0
      let c5 := if 20 ≤ vol.length ∧ vol.any (·.isSome) then
          let vr := odiv (negIdx vol 1) (negIdx (rollingApply 20 meanFr vol) 1)
          if obge vr (some ⟨3, 2⟩) then 2 else if obge vr (some ⟨11, 10⟩) then 1 else 0
        else 1
      let held := decide (5 ≤ close.length) &&
        (List.zipWith obge (tailN 5 close) (tailN 5 e20)).all id
      let c6 := if held then 2 else if obge (lastF close) (lastF e20) then 1 else 0
      [c1, c2, c3, c4, c5, c6]

/-- engine.py `score_environment` (Category E).  `sector_ranks` is the dict
computed once per pass; `rank is None` corresponds to a failed lookup. -/
def score_environment (sym : String) (df : Frame) (spy_close : Series)
    (vix_close : Series) (sector_ranks : List (String × ℕ)) : List ℕ :=
  if df.isEmpty then [0, 0, 0, 0, 0, 1]
  else
    let close := get_close df
    if close.length < 60 ∨ spy_close.length < 60 then [0, 0, 0, 0, 0, 1]
    else
      let e20 := ema close 20
      let s50 := sma 50 close
      let spy20 := ema spy_close 20
      let spy50 := sma 50 spy_close
      let c1 := if obgt (lastF spy_close) (lastF spy20) && obgt (lastF spy20) (lastF spy50) then 2
                else if obgt (lastF spy_close) (lastF spy50) then 1 else 0
      let rank := sector_ranks.lookup sym
      let c2 := match rank with
        | some r => if r ≤ 3 then 2 else if r ≤ 6 then 1 else 0
        | none => 0
      let c3 := if obgt (lastF close) (lastF e20) && obgt (lastF e20) (lastF s50) then 2
                else if obgt (lastF close) (lastF s50) then 1 else 0
      let c4 := if 21 ≤ vix_close.length then
          let vix20 := sma 20 vix_close
          if oblt (lastF vix_close) (lastF vix20) then 2 else 0
        else 1
      let c5 := if 4 ≤ close.length ∧ 4 ≤ spy_close.length then
          let rs3 := sumSkipna
            (List.zipWith osub (tailN 3 (pctChangeK 1 close)) (tailN 3 (pctChangeK 1 spy_close)))
          if Fr.Lt (Fr.I 0) rs3 then 2 else if Fr.Lt rs3.abs ⟨1, 1000⟩ then 1 else 0
        else 1
      let c6 := 1
      [c1, c2, c3, c4, c5, c6]

/-- engine.py `compute_catalyst_proxies` (Category A). -/
def compute_catalyst_proxies (df : Frame) : List CheckScore :=
  let close := get_close df
  if close.isEmpty ∨ close.length < 21 then (CHECK_LABELS .A).map (fun lab => ⟨lab, 1⟩)
  else
    let r1 := negIdx (pctChangeK 1 close) 1
    let vol := get_volume df
    let vol_boost := if 20 ≤ vol.length ∧ obgt (negIdx vol 1) (some (Fr.I 0))
      then odiv (negIdx vol 1) (negIdx (rollingApply 20 meanFr vol) 1)
      else some (Fr.I 1)
    let news := if obge (oabs r1) (some ⟨2, 100⟩) || obge vol_boost (some ⟨3, 2⟩) then 2
                else if obge (oabs r1) (some ⟨5, 1000⟩) then 1 else 0
    ((CHECK_LABELS .A).zip [news, 1, 1, 1, 1, 1]).map (fun p => ⟨p.1, p.2⟩)

/-- True-range entry: pandas `concat([...], axis=1).max(axis=1)` skips NaN,
so the row maximum ranges over the defined candidates and is NaN only when
all three are. -/
def trAt (h l pc : Flt) : Flt :=
  match [oabs (osub h l), oabs (osub h pc), oabs (osub l pc)].reduceOption with
  | [] => none
  | x :: xs => some (xs.foldl (fun a b => if Fr.Le a b then b else a) x)

/-- The true-range series from High, Low and the shifted Close. -/
def trSeries (high low prevClose : Series) : Series :=
  List.zipWith (fun hl pc => trAt hl.1 hl.2 pc) (high.zip low) prevClose

/-- Population variance (`rolling.std(ddof=0)` squared). -/
def varPop (xs : List Fr) : Fr :=
  let mu := meanFr xs
  meanFr (xs.map (fun x => (x.sub mu).mul (x.sub mu)))

/-- Bucket of the Bollinger-width percentage for the IV check, taking the
20-bar mean `m` and population variance `v` of Close.  The width in
engine.py is `((ma20+2*sd20)-(ma20-2*sd20))/ma20*100 = 400*sqrt(v)/m`; since
square roots leave the rationals, the comparisons `2 ≤ w ≤ 6` (good) and
`1 ≤ w < 2 or 6 < w ≤ 9` (neutral) are stated equivalently on squares,
using that they can hold only for `m > 0` (and `v ≥ 0` always):
`w ≥ t ↔ 160000*v ≥ t²*m²` for `t ≥ 0, m > 0`. -/
def ivBucket (m v : Fr) : ℕ :=
  let m2 := m.mul m
  let w2 := (Fr.I 160000).mul v
  if Fr.Lt (Fr.I 0) m ∧ Fr.Le ((Fr.I 4).mul m2) w2 ∧ Fr.Le w2 ((Fr.I 36).mul m2) then 2
  else if Fr.Lt (Fr.I 0) m ∧
      ((Fr.Le m2 w2 ∧ Fr.Lt w2 ((Fr.I 4).mul m2)) ∨
       (Fr.Lt ((Fr.I 36).mul m2) w2 ∧ Fr.Le w2 ((Fr.I 81).mul m2))) then 1
  else 0

/-- The 20-bar return-correlation score of engine.py
`compute_risk_volatility_checks` step (3): pair the two return series,
drop NaN rows, keep the last 20; fewer than 5 pairs give NaN (score 0).
`corr = cov/sqrt(vx*vy)` is compared through squares and the sign of `cov`
(ddof cancels in the ratio): for `vx*vy > 0`,
`corr ≥ 0.60 ↔ cov ≥ 0 and 25*cov² ≥ 9*vx*vy`,
`corr ≤ 0.95 ↔ cov ≤ 0 or 400*cov² ≤ 361*vx*vy`,
`corr ≥ 0.30 ↔ cov ≥ 0 and 100*cov² ≥ 9*vx*vy`;
`vx*vy = 0` makes `corr` NaN (score 0). -/
def corrScore (r spy_r : Series) : ℕ :=
  let joined := tailN 20 ((List.zipWith (fun a b =>
      match a, b with
      | some x, some y => some (x, y)
      | _, _ => none) r spy_r).reduceOption)
  if 5 ≤ joined.length then
    let mx := meanFr (joined.map (·.1))
    let my := meanFr (joined.map (·.2))
    let cov := (joined.map (fun p => ((p.1).sub mx).mul ((p.2).sub my))).foldl Fr.add (Fr.I 0)
    let vx := (joined.map (fun p => ((p.1).sub mx).mul ((p.1).sub mx))).foldl Fr.add (Fr.I 0)
    let vy := (joined.map (fun p => ((p.2).sub my).mul ((p.2).sub my))).foldl Fr.add (Fr.I 0)
    let vxy := vx.mul vy
    let cov2 := cov.mul cov
    if Fr.Lt (Fr.I 0) vxy ∧ Fr.Le (Fr.I 0) cov ∧
        Fr.Le ((Fr.I 9).mul vxy) ((Fr.I 25).mul cov2) ∧
        Fr.Le ((Fr.I 400).mul cov2) ((Fr.I 361).mul vxy) then 2
    else if Fr.Lt (Fr.I 0) vxy ∧ Fr.Le (Fr.I 0) cov ∧
        Fr.Le ((Fr.I 9).mul vxy) ((Fr.I 100).mul cov2) ∧
        Fr.Lt ((Fr.I 25).mul cov2) ((Fr.I 9).mul vxy) then 1
    else 0
  else 0

/-- The IV score from the last defined (mean, variance) pair of the
Bollinger computation: `v_width` is NaN (score 0) when no such pair exists. -/
def ivLast : Option (Fr × Fr) → ℕ
  | some p => ivBucket p.1 p.2
  | none => 0

/-- engine.py `compute_risk_volatility_checks` (Category D).  In the model a
missing High/Low column is a column of NaNs; the `_pick_field ... is None`
early-out is therefore reached only through the all-NaN Close test. -/
def compute_risk_volatility_checks (sym : String) (df : Frame) (spy_df : Frame) :
    List CheckScore :=
  let labels := CHECK_LABELS .D
  if df.isEmpty then labels.map (fun lab => ⟨lab, 1⟩)
  else
    let close_ser := get_close df
    let high_ser := get_high df
    let low_ser := get_low df
    if close_ser.reduceOption.isEmpty then labels.map (fun lab => ⟨lab, 1⟩)
    else
      let prev_close := shiftK 1 close_ser
      let tr := trSeries high_ser low_ser prev_close
      let atr := ewmMeanSpan 14 tr
      let atr_pct := List.zipWith (fun a c => omul (odiv a c) (some (Fr.I 100))) atr close_ser
      let v_atr := lastSome atr_pct
      let score_atr := if oble (some (Fr.I 1)) v_atr && oble v_atr (some (Fr.I 3)) then 2
        else if (oble (some ⟨1, 2⟩) v_atr && oblt v_atr (some (Fr.I 1))) ||
                (oblt (some (Fr.I 3)) v_atr && oble v_atr (some ⟨9, 2⟩)) then 1
        else 0
      let ma20 := sma 20 close_ser
      let var20 := rollingApply 20 varPop close_ser
      let wPairs := List.zipWith (fun m v =>
          match m, v with
          | some m, some v => if m.num = 0 then none else some (m, v)
          | _, _ => none) ma20 var20
      let score_iv := ivLast wPairs.reduceOption.getLast?
      let score_corr := if spy_df.isEmpty then 1
        else corrScore (pctChangeK 1 close_ser) (pctChangeK 1 (get_close spy_df))
      let ema20 := ema close_ser 20
      let score_size := if ¬ ema20.reduceOption.isEmpty ∧ ¬ atr.reduceOption.isEmpty ∧
          obgt (lastSome atr) (some (Fr.I 0)) then
          let r := odiv (oabs (osub (negIdx close_ser 1) (negIdx ema20 1))) (lastSome atr)
          if oble r (some (Fr.I 1)) then 2 else if oble r (some (Fr.I 2)) then 1 else 0
        else 1
      [⟨"ATR%", score_atr⟩, ⟨"IV%", score_iv⟩, ⟨"Correlation", score_corr⟩,
       ⟨"Event Risk", 1⟩, ⟨"Gap Plan", 1⟩, ⟨"Sizing/RR", score_size⟩]

/-- numpy `.cumsum()`. -/
def cumsum (l : List Fr) : List Fr := (l.scanl Fr.add (Fr.I 0)).tail

/-- engine.py `compute_position_flow_checks` (Category C proxies; defined in
the source but never called by `compute_scores`).  As in the source, the low
series is taken from `get_high` (the source comment notes the slip). -/
def compute_position_flow_checks (df : Frame) : List CheckScore :=
  let labels := CHECK_LABELS .C
  let close := get_close df
  let vol := get_volume df
  let high := get_high df
  let low := get_high df
  if close.isEmpty ∨ close.length < 30 ∨ vol.isEmpty then labels.map (fun lab => ⟨lab, 1⟩)
  else
    let e20 := ema close 20
    let s20 := sma 20 close
    let prev_c := shiftK 1 close
    let tr := trSeries high low prev_c
    let atr := ewmMeanSpan 14 tr
    let fit := if obgt (negIdx atr 1) (some (Fr.I 0)) then
        odiv (oabs (osub (negIdx close 1) (negIdx e20 1))) (negIdx atr 1)
      else none
    let c1 := if oble fit (some (Fr.I 1)) then 2 else if oble fit (some (Fr.I 2)) then 1 else 0
    let up_mask := (diffS close).map (fun d => obgt d (some (Fr.I 0)))
    let dn_mask := (diffS close).map (fun d => oblt d (some (Fr.I 0)))
    let up_vol := if vol.any (·.isSome) then
        some (sumSkipna (tailN 10 ((vol.zip up_mask).filterMap
          (fun p => if p.2 then some p.1 else none))))
      else none
    let dn_vol := if vol.any (·.isSome) then
        some (sumSkipna (tailN 10 ((vol.zip dn_mask).filterMap
          (fun p => if p.2 then some p.1 else none))))
      else none
    let flowRat := match dn_vol with
      | some d => if Fr.Lt (Fr.I 0) d then odiv up_vol (some d) else none
      | none => none
    let c2 := if obgt flowRat (some ⟨6, 5⟩) then 2
              else if obge flowRat (some ⟨9, 10⟩) then 1 else 0
    let c3 := if 20 ≤ vol.length ∧ obgt (negIdx vol 1) (some (Fr.I 0)) then
        let vr := odiv (negIdx vol 1) (negIdx (rollingApply 20 meanFr vol) 1)
        if obge vr (some ⟨3, 2⟩) then 2 else if obge vr (some ⟨11, 10⟩) then 1 else 0
      else 1
    let c4 := if 20 ≤ close.length then
        let ab := meanFr ((List.zipWith obgt (tailN 20 close) (tailN 20 s20)).map
          (fun b => if b then Fr.I 1 else Fr.I 0))
        if Fr.Le ⟨3, 5⟩ ab then 2 else if Fr.Le ⟨1, 2⟩ ab then 1 else 0
      else 1
    let c5 := if vol.any (·.isSome) then
        let direction := (diffS close).map (fun d =>
          match d with
          | none => Fr.I 0
          | some v => Fr.I v.num.sign)
        let obv := cumsum (List.zipWith (fun d v => d.mul (v.getD (Fr.I 0))) direction vol)
        if 20 ≤ obv.length then
          let y := tailN 20 obv
          let x := (List.range y.length).map (fun i => Fr.I i)
          let xbar := meanFr x
          let ybar := meanFr y
          let denom := (x.map (fun xi => (xi.sub xbar).mul (xi.sub xbar))).foldl Fr.add (Fr.I 0)
          let slope := if Fr.Lt (Fr.I 0) denom then
              some (((List.zipWith (fun xi yi => (xi.sub xbar).mul (yi.sub ybar)) x y).foldl
                Fr.add (Fr.I 0)).div denom)
            else none
          if obgt slope (some (Fr.I 0)) then 2
          else if oblt (oabs slope) (some ⟨1, 1000000⟩) then 1 else 0
        else 1
      else 1
    let c6 := 1
    [⟨"EM Fit", c1⟩, ⟨"OI/Flow", c2⟩, ⟨"Blocks/DP", c3⟩, ⟨"Leaders%>20D", c4⟩,
     ⟨"Money Flow", c5⟩, ⟨"SI/Days", c6⟩]

/-! ## Cross-sectional ranking and compute_scores -/

/-- A 5-bar return for the ranking: a float value or `float("-inf")`
(the fallback for missing data). -/
inductive Ret
  | negInf
  | val (v : Fr)
deriving Repr

/-- Strict float order on returns, with `-inf` below every value. -/
def Ret.Lt : Ret → Ret → Prop
  | negInf, negInf => False
  | negInf, val _ => True
  | val _, negInf => False
  | val a, val b => Fr.Lt a b

instance : DecidableRel Ret.Lt := fun a b => by
  cases a <;> cases b <;> simp only [Ret.Lt] <;> infer_instance

/-- The sort order of `sorted(rets.items(), key=lambda kv: (-kv[1], kv[0]))`:
descending return first, ascending symbol name on return ties. -/
def rankLE (a b : String × Ret) : Prop :=
  Ret.Lt b.2 a.2 ∨ (¬ Ret.Lt b.2 a.2 ∧ ¬ Ret.Lt a.2 b.2 ∧ a.1 ≤ b.1)

instance : DecidableRel rankLE := fun a b => by unfold rankLE; infer_instance

theorem Fr_Lt_trans {a b c : Fr} (h1 : Fr.Lt a b) (h2 : Fr.Lt b c) : Fr.Lt a c := by
  unfold Fr.Lt at *
  have hA : (0:ℤ) < ((max 1 a.den : ℕ) : ℤ) := by positivity
  have hB : (0:ℤ) < ((max 1 b.den : ℕ) : ℤ) := by positivity
  have hC : (0:ℤ) < ((max 1 c.den : ℕ) : ℤ) := by positivity
  have h3 : a.num * (max 1 c.den : ℕ) * (max 1 b.den : ℕ) <
      c.num * (max 1 a.den : ℕ) * (max 1 b.den : ℕ) := by nlinarith
  exact lt_of_mul_lt_mul_right h3 (le_of_lt hB)

theorem Fr_Lt_of_eqv_of_Lt {a b c : Fr} (h1 : ¬ Fr.Lt a b) (h1' : ¬ Fr.Lt b a)
    (h2 : Fr.Lt b c) : Fr.Lt a c := by
  unfold Fr.Lt at *
  have hA : (0:ℤ) < ((max 1 a.den : ℕ) : ℤ) := by positivity
  have hB : (0:ℤ) < ((max 1 b.den : ℕ) : ℤ) := by positivity
  have hC : (0:ℤ) < ((max 1 c.den : ℕ) : ℤ) := by positivity
  have heq : a.num * (max 1 b.den : ℕ) = b.num * (max 1 a.den : ℕ) := by omega
  have h3 : a.num * (max 1 c.den : ℕ) * (max 1 b.den : ℕ) <
      c.num * (max 1 a.den : ℕ) * (max 1 b.den : ℕ) := by nlinarith
  exact lt_of_mul_lt_mul_right h3 (le_of_lt hB)

theorem Fr_Lt_of_Lt_of_eqv {a b c : Fr} (h1 : Fr.Lt a b) (h2 : ¬ Fr.Lt b c)
    (h2' : ¬ Fr.Lt c b) : Fr.Lt a c := by
  unfold Fr.Lt at *
  have hA : (0:ℤ) < ((max 1 a.den : ℕ) : ℤ) := by positivity
  have hB : (0:ℤ) < ((max 1 b.den : ℕ) : ℤ) := by positivity
  have hC : (0:ℤ) < ((max 1 c.den : ℕ) : ℤ) := by positivity
  have heq : b.num * (max 1 c.den : ℕ) = c.num * (max 1 b.den : ℕ) := by omega
  have h3 : a.num * (max 1 c.den : ℕ) * (max 1 b.den : ℕ) <
      c.num * (max 1 a.den : ℕ) * (max 1 b.den : ℕ) := by nlinarith
  exact lt_of_mul_lt_mul_right h3 (le_of_lt hB)

theorem Ret.Lt_trans {a b c : Ret} (h1 : Ret.Lt a b) (h2 : Ret.Lt b c) : Ret.Lt a c := by
  cases a <;> cases b <;> cases c <;> simp only [Ret.Lt] at * <;>
    first
    | trivial
    | exact Fr_Lt_trans h1 h2

theorem Ret.Lt_of_eqv_of_Lt {a b c : Ret} (h1 : ¬ Ret.Lt a b) (h1' : ¬ Ret.Lt b a)
    (h2 : Ret.Lt b c) : Ret.Lt a c := by
  cases a <;> cases b <;> cases c <;> simp only [Ret.Lt] at * <;>
    first
    | trivial
    | exact Fr_Lt_of_eqv_of_Lt h1 h1' h2

theorem Ret.Lt_of_Lt_of_eqv {a b c : Ret} (h1 : Ret.Lt a b) (h2 : ¬ Ret.Lt b c)
    (h2' : ¬ Ret.Lt c b) : Ret.Lt a c := by
  cases a <;> cases b <;> cases c <;> simp only [Ret.Lt] at * <;>
    first
    | trivial
    | exact Fr_Lt_of_Lt_of_eqv h1 h2 h2'

instance : IsTotal (String × Ret) rankLE where
  total a b := by
    unfold rankLE
    by_cases hba : Ret.Lt b.2 a.2
    · exact Or.inl (Or.inl hba)
    · by_cases hab : Ret.Lt a.2 b.2
      · exact Or.inr (Or.inl hab)
      · rcases le_total a.1 b.1 with h | h
        · exact Or.inl (Or.inr ⟨hba, hab, h⟩)
        · exact Or.inr (Or.inr ⟨hab, hba, h⟩)

instance : IsTrans (String × Ret) rankLE where
  trans a b c hab hbc := by
    unfold rankLE at *
    rcases hab with hab | ⟨hba', hab', hname⟩
    · rcases hbc with hbc | ⟨hcb', hbc', hname'⟩
      · exact Or.inl (Ret.Lt_trans hbc hab)
      · exact Or.inl (Ret.Lt_of_eqv_of_Lt hcb' hbc' hab)
    · rcases hbc with hbc | ⟨hcb', hbc', hname'⟩
      · exact Or.inl (Ret.Lt_of_Lt_of_eqv hbc hba' hab')
      · refine Or.inr ⟨fun h => hcb' (Ret.Lt_of_Lt_of_eqv h hab' hba'), ?_, le_trans hname hname'⟩
        exact fun h => hbc' (Ret.Lt_of_eqv_of_Lt hba' hab' h)

/-- compute_scores: `rets[s]`, the 5-bar percentage return of a symbol, the
last non-NaN entry of `c.pct_change(5)`, or `-inf` when there is none. -/
def rets5 (data : String → Frame) (s : String) : Ret :=
  match lastSome (pctChangeK 5 (get_close (data s))) with
  | some v => .val v
  | none => .negInf

/-- compute_scores: the items of the `rets` dict in insertion order (the
requested symbols, assumed distinct as in the fixed sector universe). -/
def sector_pairs (sectors : List String) (data : String → Frame) : List (String × Ret) :=
  sectors.map (fun s => (s, rets5 data s))

/-- compute_scores: `ranked = sorted(rets.items(), key=lambda kv: (-kv[1], kv[0]))`
(Python's sort is stable and insertion sort realizes it). -/
def sector_ranked (sectors : List String) (data : String → Frame) : List (String × Ret) :=
  List.insertionSort rankLE (sector_pairs sectors data)

/-- compute_scores: `ranks = {sym: i + 1 for i, (sym, _) in enumerate(ranked)}`. -/
def sector_ranks (sectors : List String) (data : String → Frame) : List (String × ℕ) :=
  (sector_ranked sectors data).enum.map (fun p => (p.2.1, p.1 + 1))

/-- One output row of `compute_scores`:
`{"symbol": sym, "categories": {...}}`. -/
structure RowDict where
  symbol : String
  categories : CatKey → List CheckScore

/-- The body of the per-symbol loop of engine.py `compute_scores`: build one
`{"symbol": ..., "categories": ...}` row.  The `try/except` fallbacks around
the scorers are dead branches here because the embedded scorers are total
functions. -/
def scoreRow (data : String → Frame) (spy_close vix_close : Series)
    (ranks : List (String × ℕ)) (sym : String) : RowDict :=
    let df_sym := data sym
    let b_scores := if ¬ df_sym.isEmpty then score_trend_structure df_sym spy_close
      else [0, 0, 0, 0, 0, 0]
    let e_scores := if ¬ df_sym.isEmpty then
        score_environment sym df_sym spy_close vix_close ranks
      else [0, 0, 0, 0, 0, 1]
    let d_checks := compute_risk_volatility_checks sym df_sym (data "SPY")
    let a_checks := compute_catalyst_proxies df_sym
    let neutral : List ℕ := [1, 1, 1, 1, 1, 1]
    { symbol := sym
      categories := fun k =>
        match k with
        | .A => a_checks
        | .B => ((CHECK_LABELS .B).zip b_scores).map (fun p => ⟨p.1, p.2⟩)
        | .C => ((CHECK_LABELS .C).zip neutral).map (fun p => ⟨p.1, p.2⟩)
        | .D => d_checks
        | .E => ((CHECK_LABELS .E).zip e_scores).map (fun p => ⟨p.1, p.2⟩)
        | .F => ((CHECK_LABELS .F).zip neutral).map (fun p => ⟨p.1, p.2⟩) }

/-- engine.py `compute_scores`, embedded from the point after the
`safe_download` call: `data` is the fetched symbol-to-frame mapping (the
fetch itself is modelled separately by `safe_download_sym`).  The ranking is
computed once, before the per-symbol loop, and shared by every row. -/
def compute_scores (sectors : List String) (data : String → Frame) : List RowDict :=
  let spy_close := get_close (data "SPY")
  let vix_close := get_close (data "^VIX")
  let ranks := sector_ranks sectors data
  sectors.map (scoreRow data spy_close vix_close ranks)

/-! ## Resilient fetch: safe_download / try_modes (engine.py)

One fetch attempt either raises a transient error (`Except.error`) or
returns a raw frame.  A raw frame is its bars plus whether a Close (or Adj
Close) column is present after renaming; timestamps are integer seconds.
The network call itself and the inter-attempt sleeps are outside the model;
`try_modes` consumes the list of attempt outcomes in order. -/

/-- The result of one yfinance call, before normalization. -/
structure RawFrame where
  hasClose : Bool
  bars : Frame

/-- engine.py `normalize_cols`: drop all-NaN rows (`dropna(how="all")`);
column retitling is abstracted away. -/
def normalize_cols (rf : RawFrame) : RawFrame :=
  ⟨rf.hasClose, rf.bars.filter (fun b =>
    b.close.isSome || b.high.isSome || b.low.isSome || b.volume.isSome)⟩

/-- engine.py `first_valid`: a non-empty frame with a Close column. -/
def first_valid (rf : RawFrame) : Bool := !rf.bars.isEmpty && rf.hasClose

/-- engine.py `try_modes` loop: each raised attempt error is caught and
skipped; a valid frame with at least 60 bars is accepted immediately;
otherwise the longest valid short frame seen so far is kept; if nothing
valid remains at the end, an empty frame is returned. -/
def try_modes_go : List (Except Unit RawFrame) → Option RawFrame → RawFrame
  | [], best => best.getD ⟨false, []⟩
  | a :: rest, best =>
    match a with
    | .error _ => try_modes_go rest best
    | .ok f0 =>
      let f := normalize_cols f0
      if ¬ first_valid f then try_modes_go rest best
      else if 60 ≤ f.bars.length then f
      else
        try_modes_go rest
          (match best with
           | none => some f
           | some b => if b.bars.length < f.bars.length then some f else some b)

/-- engine.py `try_modes` applied to the outcomes of the six modes. -/
def try_modes (attempts : List (Except Unit RawFrame)) : RawFrame :=
  try_modes_go attempts none

/-- An attempt that the source counts as failed: it raised, or its
normalized frame has no Close column or no rows. -/
def attempt_failed (a : Except Unit RawFrame) : Prop :=
  match a with
  | .error _ => True
  | .ok f => ¬ first_valid (normalize_cols f)

/-- The body of the per-symbol loop of engine.py `safe_download`: given the
cache entry for `(symbol, period, interval)` (fetch time and frame), the
current time, the TTL, the attempt outcomes and the time at cache write,
return the new cache entry and the frame put into the result mapping. -/
def safe_download_sym (cached : Option (ℤ × RawFrame)) (now : ℤ) (ttl_sec : ℤ)
    (attempts : List (Except Unit RawFrame)) (now2 : ℤ) : (ℤ × RawFrame) × RawFrame :=
  match cached with
  | some (t, cf) =>
    if now - t < max 1 ttl_sec then ((t, cf), cf)
    else
      let fr0 := try_modes attempts
      let fr1 := if fr0.bars.isEmpty then cf else fr0
      ((now2, fr1), fr1)
  | none =>
    let fr0 := try_modes attempts
    ((now2, fr0), fr0)

/-! ## market_ui.py data structures and build_sector_from_json -/

/-- market_ui dataclass `Check`. -/
structure Check where
  label : String
  score : ℤ
deriving Repr

/-- market_ui dataclass `Category`. -/
structure Category where
  key : CatKey
  checks : List Check

/-- market_ui `Category.total`: sum of its check scores. -/
def Category.total (c : Category) : ℤ := (c.checks.map (·.score)).sum

/-- market_ui dataclass `SectorRow`; the categories dict always carries the
six keys A-F when built by this module. -/
structure SectorRow where
  symbol : String
  categories : CatKey → Category

/-- market_ui `SectorRow.total`: sum of the six category totals. -/
def SectorRow.total (r : SectorRow) : ℤ :=
  (catKeys.map (fun k => (r.categories k).total)).sum

/-- A raw "score" value from the JSON payload: something `int(...)` maps to
an integer, or something that makes `int(...)` raise `ValueError` or
`TypeError` (caught by the source and replaced by 0). -/
inductive RawScore
  | num (n : ℤ)
  | nonNum
deriving Repr, DecidableEq

/-- One element of a raw `checks` list: a dict (with or without a "score"
key), or a non-dict, on which `.get` raises `AttributeError` - an exception
the source does not catch. -/
inductive RawCheck
  | obj (score : Option RawScore)
  | notDict
deriving Repr, DecidableEq

/-- A raw category node `{"checks": [...]}`. -/
structure RawNode where
  checks : List RawCheck

/-- A raw payload item `{"symbol": ..., "categories": {...}}`, already
assuming the shape in claim C10's hypothesis: `categories`, when present,
maps category keys to nodes with list-valued `checks`. -/
structure RawItem where
  symbol : Option String
  categories : CatKey → Option RawNode

/-- market_ui `build_sector_from_json` inner score computation:
`raw = cj.get("score", 0)`, then `max(0, min(2, int(raw)))` with
`ValueError`/`TypeError` replaced by 0. -/
def scoreOf (sc : Option RawScore) : ℤ :=
  match sc.getD (.num 0) with
  | .num n => max 0 (min 2 n)
  | .nonNum => 0

/-- market_ui `build_sector_from_json` inner loop over
`enumerate(CHECK_LABELS[key])`: positions beyond the raw list get score 0,
raw entries beyond the six labels are never read, and a non-dict raw entry
at a read position raises (an uncaught `AttributeError`). -/
def buildChecks : List String → List RawCheck → Except Unit (List Check)
  | [], _ => .ok []
  | lab :: labs, [] => do
    let rest ← buildChecks labs []
    .ok (⟨lab, 0⟩ :: rest)
  | lab :: labs, cj :: cjs =>
    match cj with
    | .notDict => .error ()
    | .obj sc => do
      let rest ← buildChecks labs cjs
      .ok (⟨lab, scoreOf sc⟩ :: rest)

/-- market_ui `build_sector_from_json`: six categories in the order A-F,
each with exactly the six canonical labels; a missing `categories` key or
category node behaves as an empty node. -/
def build_sector_from_json (item : RawItem) : Except Unit SectorRow := do
  let cA ← buildChecks (CHECK_LABELS .A) ((item.categories .A).getD ⟨[]⟩).checks
  let cB ← buildChecks (CHECK_LABELS .B) ((item.categories .B).getD ⟨[]⟩).checks
  let cC ← buildChecks (CHECK_LABELS .C) ((item.categories .C).getD ⟨[]⟩).checks
  let cD ← buildChecks (CHECK_LABELS .D) ((item.categories .D).getD ⟨[]⟩).checks
  let cE ← buildChecks (CHECK_LABELS .E) ((item.categories .E).getD ⟨[]⟩).checks
  let cF ← buildChecks (CHECK_LABELS .F) ((item.categories .F).getD ⟨[]⟩).checks
  .ok ⟨item.symbol.getD "?", fun k =>
    match k with
    | .A => ⟨.A, cA⟩
    | .B => ⟨.B, cB⟩
    | .C => ⟨.C, cC⟩
    | .D => ⟨.D, cD⟩
    | .E => ⟨.E, cE⟩
    | .F => ⟨.F, cF⟩⟩

/-- Modelled from the spec: serialization of a `SectorRow` to the output
payload `{symbol: ..., categories: {A..F: {checks: [{label, score}]}}}`
(spec section 6).  The repository writes this payload as JSON directly from
the engine's dicts and has no SectorRow-to-payload function of its own, so
the serializer is taken from the spec's payload description. -/
def toPayload (r : SectorRow) : RawItem :=
  ⟨some r.symbol, fun k =>
    some ⟨(r.categories k).checks.map (fun c => .obj (some (.num c.score)))⟩⟩

/-! ## Theorems for claims C1, C3, C4 -/

/-- Claim C1: with a previously committed band and hysteresis threshold h > 0,
a move to a higher band is committed only if the new score exceeds that higher
band's lower bound by at least h; a move to a lower band is committed only if
the new score falls below the previously committed band's lower bound by at
least h; otherwise the previous band is retained.  With last band 2, bounds
[20,40,60,80] and h = 5, a score of 61 keeps band 2 and a score of 66 commits
band 3. -/
theorem C1_hysteresis (h : ℤ) (lastB : ℕ) (pct : ℤ) (b : Bounds) (hpos : 0 < h) :
    (lastB < commit_band h (some lastB) pct b →
      lower_of_band b (commit_band h (some lastB) pct b) + h ≤ pct) ∧
    (commit_band h (some lastB) pct b < lastB →
      pct ≤ lower_of_band b lastB - h) ∧
    (lastB < band_index pct b → pct < lower_of_band b (band_index pct b) + h →
      commit_band h (some lastB) pct b = lastB) ∧
    (band_index pct b < lastB → lower_of_band b lastB - h < pct →
      commit_band h (some lastB) pct b = lastB) ∧
    (band_index pct b = lastB → commit_band h (some lastB) pct b = lastB) ∧
    commit_band 5 (some 2) 61 fixed_bounds = 2 ∧
    commit_band 5 (some 2) 66 fixed_bounds = 3 := by
  refine ⟨?_, ?_, ?_, ?_, ?_, by decide, by decide⟩ <;>
    (simp only [commit_band]; split_ifs <;> omega)

/-- Witness for C1 at h = 5, last band 2, score 61, fixed bounds. -/
theorem C1_hysteresis_witness : commit_band 5 (some 2) 61 fixed_bounds = 2 :=
  (C1_hysteresis 5 2 61 fixed_bounds (by decide)).2.2.2.2.2.1

/-- Claim C3: classification maps a score to a band via left-closed intervals:
band 0 = [0,c1), 1 = [c1,c2), 2 = [c2,c3), 3 = [c3,c4), 4 = [c4,100]; in
particular classify(19,[20,40,60,80]) = 0, classify(20,...) = 1 and
classify(100,...) = 4, and rating.py `label_for` uses the same band index. -/
theorem C3_classify (score : ℤ) (b : Bounds)
    (hasc : b.c1 < b.c2 ∧ b.c2 < b.c3 ∧ b.c3 < b.c4)
    (h0 : 0 ≤ score) (h100 : score ≤ 100) :
    (band_index score b = 0 ↔ 0 ≤ score ∧ score < b.c1) ∧
    (band_index score b = 1 ↔ b.c1 ≤ score ∧ score < b.c2) ∧
    (band_index score b = 2 ↔ b.c2 ≤ score ∧ score < b.c3) ∧
    (band_index score b = 3 ↔ b.c3 ≤ score ∧ score < b.c4) ∧
    (band_index score b = 4 ↔ b.c4 ≤ score ∧ score ≤ 100) ∧
    band_index 19 fixed_bounds = 0 ∧
    band_index 20 fixed_bounds = 1 ∧
    band_index 100 fixed_bounds = 4 ∧
    (label_for score b).label = (LABELS.getD (band_index score b) ("", "")).1 := by
  refine ⟨?_, ?_, ?_, ?_, ?_, by decide, by decide, by decide, rfl⟩ <;>
    (simp only [band_index]; split_ifs <;>
      (try simp only [false_iff, true_iff, not_and, not_lt, not_le]) <;> omega)

/-- Witness for C3 at score 63 and the fixed bounds. -/
theorem C3_classify_witness : band_index 63 fixed_bounds = 3 :=
  (C3_classify 63 fixed_bounds (by decide) (by decide) (by decide)).2.2.2.1.mpr (by decide)

/-- Helper: Python round of the exact rational 0 is 0. -/
theorem pyRound_zero : pyRound 0 = 0 := by norm_num [pyRound]

/-- Helper: the nearest-rank value of a one-element cross-section is that
element, whatever percentile is requested. -/
theorem pctRank_single (v : ℤ) (p : ℕ) : pctRank [v] p = v := by
  simp [pctRank, pyRound_zero]

/-- Counterexample to claim C4: under the quantile scheme a degenerate
cross-section (a single score of 50) produces the cut points [50,50,50,50],
which are not strictly ascending. -/
theorem C4_counterexample :
    choose_bounds [some 50] "quantile" (10, 30, 70, 90) 5 = ⟨50, 50, 50, 50⟩ ∧
    ¬ (choose_bounds [some 50] "quantile" (10, 30, 70, 90) 5).c1 <
        (choose_bounds [some 50] "quantile" (10, 30, 70, 90) 5).c2 := by
  have h : choose_bounds [some 50] "quantile" (10, 30, 70, 90) 5 = ⟨50, 50, 50, 50⟩ := by
    simp [choose_bounds, quantile_bounds, List.insertionSort, List.orderedInsert, pctRank_single]
  exact ⟨h, by rw [h]; decide⟩

/-- Claim C4 amended: for the fixed and hybrid schemes (guard 5) the four cut
points are strictly ascending for every input cross-section; the quantile
scheme does not guarantee this. -/
theorem C4_bounds_ascending (scores : List (Option ℤ)) (qs : ℕ × ℕ × ℕ × ℕ) :
    ((choose_bounds scores "fixed" qs 5).c1 < (choose_bounds scores "fixed" qs 5).c2 ∧
     (choose_bounds scores "fixed" qs 5).c2 < (choose_bounds scores "fixed" qs 5).c3 ∧
     (choose_bounds scores "fixed" qs 5).c3 < (choose_bounds scores "fixed" qs 5).c4) ∧
    ((choose_bounds scores "hybrid" qs 5).c1 < (choose_bounds scores "hybrid" qs 5).c2 ∧
     (choose_bounds scores "hybrid" qs 5).c2 < (choose_bounds scores "hybrid" qs 5).c3 ∧
     (choose_bounds scores "hybrid" qs 5).c3 < (choose_bounds scores "hybrid" qs 5).c4) := by
  simp only [choose_bounds, hybridClamp, fixed_bounds, String.reduceEq, reduceIte,
    if_true, if_false]
  refine ⟨⟨by omega, by omega, by omega⟩, by omega, by omega, by omega⟩

/-! ## Theorems for claims C2 and C7 -/

/-- A bar whose Close, High, Low and Volume are all 100. -/
def constBar : Bar := ⟨some (Fr.I 100), some (Fr.I 100), some (Fr.I 100), some (Fr.I 100)⟩

/-- Thirty constant bars: long enough for every Category C proxy. -/
def constFrame30 : Frame := List.replicate 30 constBar

/-- Claim C2 (the code contradicts it): `compute_scores` fills Category C of
every output row with the fixed neutral scores [1,1,1,1,1,1] for every input,
and never calls `compute_position_flow_checks`; that function, applied to a
30-bar series (here constant closes and volumes), returns [0,0,0,0,1,1], so
the proxies are not what the emitted rows contain. -/
theorem C2_category_C_neutral :
    (∀ (sectors : List String) (data : String → Frame),
      (compute_scores sectors data).map (fun r => (r.categories .C).map (·.score)) =
        sectors.map (fun _ => [1, 1, 1, 1, 1, 1])) ∧
    (compute_position_flow_checks constFrame30).map (·.score) = [0, 0, 0, 0, 1, 1] ∧
    ¬ (compute_position_flow_checks constFrame30).map (·.score) = [1, 1, 1, 1, 1, 1] := by
  refine ⟨fun sectors data => ?_, by decide, by decide⟩
  simp only [compute_scores, List.map_map]
  exact List.map_congr_left (fun sym _ => rfl)

/-- Data for the ranking example of claim C7: five closes of 100 and a sixth
close of 105 / 102 / 99 give 5-bar returns of exactly 0.05 / 0.02 / -0.01
for XLK / XLF / XLE. -/
def rankFrame (lastC : ℤ) : Frame :=
  (List.replicate 5 (⟨some (Fr.I 100), none, none, none⟩ : Bar)) ++
    [⟨some (Fr.I lastC), none, none, none⟩]

/-- The concrete data map for the ranking example of claim C7. -/
def rankExData : String → Frame
  | "XLK" => rankFrame 105
  | "XLF" => rankFrame 102
  | "XLE" => rankFrame 99
  | _ => []

/-- Claim C7: the cross-sectional rank is computed once per pass
(`sector_ranks` is evaluated before the symbol loop of `compute_scores` and
shared by every row) by sorting on 5-bar return descending with symbol-name
ties ascending; the sorted list is a permutation of the input pairs; missing
data maps to `-inf` and therefore ranks behind every present value; and the
concrete cross-section {XLK: 0.05, XLF: 0.02, XLE: -0.01} ranks XLK=1,
XLF=2, XLE=3. -/
theorem C7_rank (sectors : List String) (data : String → Frame) :
    compute_scores sectors data = sectors.map (scoreRow data (get_close (data "SPY"))
      (get_close (data "^VIX")) (sector_ranks sectors data)) ∧
    (sector_ranked sectors data).Sorted rankLE ∧
    (sector_ranked sectors data).Perm (sector_pairs sectors data) ∧
    (∀ i j : Fin (sector_ranked sectors data).length, i < j →
      ((sector_ranked sectors data).get i).2 = Ret.negInf →
      ((sector_ranked sectors data).get j).2 = Ret.negInf) ∧
    (∀ s, data s = [] → rets5 data s = Ret.negInf) ∧
    sector_ranks ["XLE", "XLF", "XLK"] rankExData = [("XLK", 1), ("XLF", 2), ("XLE", 3)] := by
  refine ⟨rfl, List.sorted_insertionSort rankLE _, List.perm_insertionSort rankLE _,
    fun i j hij hi => ?_, fun s hs => ?_, by decide⟩
  · have hrel : rankLE ((sector_ranked sectors data).get i) ((sector_ranked sectors data).get j) :=
      (List.sorted_insertionSort rankLE (sector_pairs sectors data)).rel_get_of_lt hij
    simp only [rankLE] at hrel
    rcases hrel with h | ⟨-, h, -⟩
    · rw [hi] at h
      cases hj : ((sector_ranked sectors data).get j).2 with
      | negInf => rfl
      | val v => rw [hj] at h; simp only [Ret.Lt] at h
    · rw [hi] at h
      cases hj : ((sector_ranked sectors data).get j).2 with
      | negInf => rfl
      | val v =>
        rw [hj] at h
        exact absurd (show Ret.Lt Ret.negInf (Ret.val v) from trivial) h
  · simp [rets5, hs, get_close, pctChangeK, shiftK, lastSome]

/-- Witness for C7: the theorem applied to the concrete three-symbol
cross-section. -/
theorem C7_rank_witness :
    sector_ranks ["XLE", "XLF", "XLK"] rankExData = [("XLK", 1), ("XLF", 2), ("XLE", 3)] :=
  (C7_rank [] (fun _ => [])).2.2.2.2.2

/-! ## Theorem for claim C6 -/

/-- Helper for C6: when every attempt fails (raises, or yields a frame with
no rows or no Close column after normalization), the try_modes loop keeps
whatever best-so-far frame it entered with. -/
theorem try_modes_go_all_failed (attempts : List (Except Unit RawFrame))
    (best : Option RawFrame) (hfail : ∀ a ∈ attempts, attempt_failed a) :
    try_modes_go attempts best = best.getD ⟨false, []⟩ := by
  induction attempts generalizing best with
  | nil => rfl
  | cons a rest ih =>
    have ha := hfail a (List.mem_cons_self a rest)
    have hrest := fun x hx => hfail x (List.mem_cons_of_mem a hx)
    cases a with
    | error e => exact ih best hrest
    | ok f0 =>
      simp only [attempt_failed] at ha
      simp only [try_modes_go, if_pos ha]
      exact ih best hrest

/-- Claim C6: (i) an attempt that raises is caught and skipped, never
propagated; (ii) when every attempt fails the fetch yields an empty frame;
(iii) when every attempt fails and a cache entry exists, even a stale one,
the cached series is returned for the symbol; (iv) with no cache entry the
symbol gets the empty series; and (v) on every non-fresh-cache path the
cache entry is overwritten with exactly the resulting series and the
current fetch timestamp. -/
theorem C6_fetch_resilience :
    (∀ (e : Unit) (rest : List (Except Unit RawFrame)) (best : Option RawFrame),
      try_modes_go (.error e :: rest) best = try_modes_go rest best) ∧
    (∀ attempts, (∀ a ∈ attempts, attempt_failed a) → try_modes attempts = ⟨false, []⟩) ∧
    (∀ (t : ℤ) (cf : RawFrame) (now ttl : ℤ) attempts (now2 : ℤ),
      ¬ now - t < max 1 ttl → (∀ a ∈ attempts, attempt_failed a) →
      safe_download_sym (some (t, cf)) now ttl attempts now2 = ((now2, cf), cf)) ∧
    (∀ attempts (now ttl now2 : ℤ), (∀ a ∈ attempts, attempt_failed a) →
      safe_download_sym none now ttl attempts now2 = ((now2, ⟨false, []⟩), ⟨false, []⟩)) ∧
    (∀ (cached : Option (ℤ × RawFrame)) (now ttl : ℤ) attempts (now2 : ℤ),
      (∀ t cf, cached = some (t, cf) → ¬ now - t < max 1 ttl) →
      (safe_download_sym cached now ttl attempts now2).1 =
        (now2, (safe_download_sym cached now ttl attempts now2).2)) := by
  refine ⟨fun e rest best => rfl, ?_, ?_, ?_, ?_⟩
  · exact fun attempts h => try_modes_go_all_failed attempts none h
  · intro t cf now ttl attempts now2 hstale hfail
    have h : try_modes attempts = ⟨false, []⟩ := try_modes_go_all_failed attempts none hfail
    simp only [safe_download_sym]
    rw [if_neg hstale, h]
    rfl
  · intro attempts now ttl now2 hfail
    have h : try_modes attempts = ⟨false, []⟩ := try_modes_go_all_failed attempts none hfail
    simp [safe_download_sym, h]
  · intro cached now ttl attempts now2 hstale
    match cached with
    | none => rfl
    | some (t, cf) =>
      simp only [safe_download_sym, if_neg (hstale t cf rfl)]

/-- Witness for C6: a stale one-bar cache entry survives a single failed
attempt and is restamped at the new fetch time. -/
theorem C6_fetch_resilience_witness :
    safe_download_sym (some (5, ⟨true, [constBar]⟩)) 1000 300 [.error ()] 1001 =
      ((1001, ⟨true, [constBar]⟩), ⟨true, [constBar]⟩) :=
  C6_fetch_resilience.2.2.1 5 ⟨true, [constBar]⟩ 1000 300 [.error ()] 1001 (by decide)
    (fun a ha => by
      rw [List.mem_singleton] at ha
      subst ha
      exact trivial)

/-! ## Theorem for claim C8 -/

/-- Claim C8: `compute_scores` is total (the embedding is a function, the
source's per-category `try/except` fallbacks make no scorer failure fatal),
and every requested symbol appears in the output in order even when its
price data is entirely unavailable; such a symbol's row is still well formed
(six checks per category) with every check neutral (1) or zero. -/
theorem C8_no_symbol_dropped (sectors : List String) (data : String → Frame) :
    (compute_scores sectors data).length = sectors.length ∧
    (compute_scores sectors data).map (·.symbol) = sectors ∧
    (∀ (i : ℕ) (hi : i < sectors.length) (k : CatKey),
      data (sectors.get ⟨i, hi⟩) = [] →
      (((compute_scores sectors data).get
          ⟨i, by simpa [compute_scores] using hi⟩).categories k).length = 6 ∧
      ∀ c ∈ ((compute_scores sectors data).get
          ⟨i, by simpa [compute_scores] using hi⟩).categories k,
        c.score ≤ 1) := by
  refine ⟨by simp [compute_scores], ?_, ?_⟩
  · simp only [compute_scores, List.map_map]
    exact (List.map_congr_left (fun a _ => rfl)).trans (List.map_id _)
  intro i hi k hdata
  simp only [List.get_eq_getElem] at hdata ⊢
  simp only [compute_scores, scoreRow, List.getElem_map]
  rw [hdata]
  simp only [compute_risk_volatility_checks, compute_catalyst_proxies, get_close,
    List.map_nil, List.isEmpty_nil, List.length_nil, reduceIte, Nat.zero_lt_succ,
    true_or, not_true_eq_false, if_true, if_false, ite_true, ite_false]
  cases k <;> exact ⟨by decide, by decide⟩

/-- Witness for C8: one symbol with no data at all still yields a row whose
Category A has its six checks. -/
theorem C8_no_symbol_dropped_witness :
    (((compute_scores ["XLK"] (fun _ => [])).get
        ⟨0, by simp [compute_scores]⟩).categories CatKey.A).length = 6 :=
  ((C8_no_symbol_dropped ["XLK"] (fun _ => [])).2.2 0 (by decide) CatKey.A rfl).1

/-! ## Bounds on the scorers, and the C5 invariants -/

/-- A list of naturals bounded by `b` sums to at most `b` times its length. -/
theorem sum_le_nat (b : ℕ) (l : List ℕ) (h : ∀ x ∈ l, x ≤ b) : l.sum ≤ b * l.length := by
  induction l with
  | nil => simp
  | cons x xs ih =>
    have hx := h x (List.mem_cons_self x xs)
    have hxs := ih (fun y hy => h y (List.mem_cons_of_mem x hy))
    simp only [List.sum_cons, List.length_cons]
    calc x + xs.sum ≤ b + b * xs.length := by omega
    _ = b * (xs.length + 1) := by ring

/-- A list of integers with entries in `[0, b]` sums into `[0, b·length]`. -/
theorem sum_bounds_int (b : ℤ) (l : List ℤ) (h : ∀ x ∈ l, 0 ≤ x ∧ x ≤ b) :
    0 ≤ l.sum ∧ l.sum ≤ b * l.length := by
  induction l with
  | nil => simp
  | cons x xs ih =>
    have hx := h x (List.mem_cons_self x xs)
    have hxs := ih (fun y hy => h y (List.mem_cons_of_mem x hy))
    simp only [List.sum_cons, List.length_cons]
    constructor
    · omega
    · have : b * (↑xs.length + 1) = b + b * ↑xs.length := by ring
      push_cast
      omega

/-- Each CHECK_LABELS row has six labels. -/
theorem CHECK_LABELS_length (k : CatKey) : (CHECK_LABELS k).length = 6 := by
  cases k <;> rfl

theorem ivBucket_le (m v : Fr) : ivBucket m v ≤ 2 := by
  rw [ivBucket]
  split_ifs <;> omega

theorem ivLast_le (w : Option (Fr × Fr)) : ivLast w ≤ 2 := by
  cases w with
  | none => exact Nat.zero_le 2
  | some p => exact ivBucket_le p.1 p.2

theorem corrScore_le (r s : Series) : corrScore r s ≤ 2 := by
  simp only [corrScore]
  split_ifs <;> omega

theorem score_trend_structure_le (df : Frame) (spy_close : Series) :
    ∀ s ∈ score_trend_structure df spy_close, s ≤ 2 := by
  intro s hs
  rw [score_trend_structure] at hs
  by_cases h1 : df.isEmpty
  · simp only [if_pos h1, List.mem_cons, List.not_mem_nil, or_false] at hs
    omega
  · rw [if_neg h1] at hs
    by_cases h2 : (get_close df).length < 60
    · simp only [if_pos h2, List.mem_cons, List.not_mem_nil, or_false] at hs
      omega
    · rw [if_neg h2] at hs
      simp only [List.mem_cons, List.not_mem_nil, or_false] at hs
      rcases hs with h | h | h | h | h | h <;> subst h <;> split_ifs <;> omega

theorem score_trend_structure_length (df : Frame) (spy_close : Series) :
    (score_trend_structure df spy_close).length = 6 := by
  simp only [score_trend_structure]
  by_cases h1 : df.isEmpty
  · rw [if_pos h1]; rfl
  · rw [if_neg h1]
    by_cases h2 : (get_close df).length < 60
    · rw [if_pos h2]; rfl
    · rw [if_neg h2]; rfl

theorem score_environment_le (sym : String) (df : Frame) (spy_close vix_close : Series)
    (ranks : List (String × ℕ)) :
    ∀ s ∈ score_environment sym df spy_close vix_close ranks, s ≤ 2 := by
  intro s hs
  rw [score_environment] at hs
  by_cases h1 : df.isEmpty
  · simp only [if_pos h1, List.mem_cons, List.not_mem_nil, or_false] at hs
    omega
  · rw [if_neg h1] at hs
    by_cases h2 : (get_close df).length < 60 ∨ spy_close.length < 60
    · simp only [if_pos h2, List.mem_cons, List.not_mem_nil, or_false] at hs
      omega
    · rw [if_neg h2] at hs
      simp only [List.mem_cons, List.not_mem_nil, or_false] at hs
      rcases hs with h | h | h | h | h | h <;> subst h <;>
        (try cases (ranks.lookup sym)) <;> (try dsimp only) <;>
        first
        | omega
        | (split_ifs <;> omega)

theorem score_environment_length (sym : String) (df : Frame) (spy_close vix_close : Series)
    (ranks : List (String × ℕ)) :
    (score_environment sym df spy_close vix_close ranks).length = 6 := by
  simp only [score_environment]
  by_cases h1 : df.isEmpty
  · rw [if_pos h1]; rfl
  · rw [if_neg h1]
    by_cases h2 : (get_close df).length < 60 ∨ spy_close.length < 60
    · rw [if_pos h2]; rfl
    · rw [if_neg h2]; rfl

theorem compute_catalyst_proxies_le (df : Frame) :
    ∀ c ∈ compute_catalyst_proxies df, c.score ≤ 2 := by
  intro c hc
  rw [compute_catalyst_proxies] at hc
  split at hc
  · rcases List.mem_map.mp hc with ⟨lab, -, rfl⟩
    exact Nat.le_succ 1
  · rcases List.mem_map.mp hc with ⟨p, hp, rfl⟩
    have h2 := (List.of_mem_zip hp).2
    simp only [List.mem_cons, List.not_mem_nil, or_false] at h2
    rcases h2 with h | h | h | h | h | h <;> simp only [h] <;>
      first
      | omega
      | (split_ifs <;> omega)

theorem compute_catalyst_proxies_length (df : Frame) :
    (compute_catalyst_proxies df).length = 6 := by
  rw [compute_catalyst_proxies]
  split <;> rfl

theorem compute_risk_volatility_checks_le (sym : String) (df : Frame) (spy_df : Frame) :
    ∀ c ∈ compute_risk_volatility_checks sym df spy_df, c.score ≤ 2 := by
  intro c hc
  rw [compute_risk_volatility_checks] at hc
  by_cases h1 : df.isEmpty
  · rw [if_pos h1] at hc
    rcases List.mem_map.mp hc with ⟨lab, -, rfl⟩
    exact Nat.le_succ 1
  · rw [if_neg h1] at hc
    by_cases h2 : (get_close df).reduceOption.isEmpty
    · simp only [if_pos h2] at hc
      rcases List.mem_map.mp hc with ⟨lab, -, rfl⟩
      exact Nat.le_succ 1
    · simp only [if_neg h2, List.mem_cons, List.not_mem_nil, or_false] at hc
      rcases hc with h | h | h | h | h | h <;> subst h <;> dsimp only
      · split_ifs <;> omega
      · exact ivLast_le _
      · split_ifs
        · omega
        · exact corrScore_le _ _
      · omega
      · omega
      · split_ifs <;> omega

theorem compute_risk_volatility_checks_length (sym : String) (df : Frame) (spy_df : Frame) :
    (compute_risk_volatility_checks sym df spy_df).length = 6 := by
  simp only [compute_risk_volatility_checks]
  by_cases h1 : df.isEmpty
  · rw [if_pos h1]; rfl
  · rw [if_neg h1]
    by_cases h2 : (get_close df).reduceOption.isEmpty
    · rw [if_pos h2]; rfl
    · rw [if_neg h2]; rfl

/-- Scores placed by zipping the six labels with a score list stay bounded
by the bound on the score list. -/
theorem zip_mk_le (labels : List String) (scores : List ℕ) (hb : ∀ s ∈ scores, s ≤ 2) :
    ∀ c ∈ (labels.zip scores).map (fun p => (⟨p.1, p.2⟩ : CheckScore)), c.score ≤ 2 := by
  intro c hc
  rcases List.mem_map.mp hc with ⟨p, hp, rfl⟩
  exact hb p.2 (List.of_mem_zip hp).2

/-- Every check score of every category of a row built by the compute_scores
loop body is at most 2, and each category has exactly six checks. -/
theorem scoreRow_cat (data : String → Frame) (spy_close vix_close : Series)
    (ranks : List (String × ℕ)) (sym : String) (k : CatKey) :
    (∀ c ∈ (scoreRow data spy_close vix_close ranks sym).categories k, c.score ≤ 2) ∧
    ((scoreRow data spy_close vix_close ranks sym).categories k).length = 6 := by
  cases k
  case A => exact ⟨compute_catalyst_proxies_le (data sym), compute_catalyst_proxies_length (data sym)⟩
  case D => exact ⟨compute_risk_volatility_checks_le sym (data sym) (data "SPY"),
    compute_risk_volatility_checks_length sym (data sym) (data "SPY")⟩
  case B =>
    constructor
    · apply zip_mk_le
      intro s hs
      split at hs
      · exact score_trend_structure_le _ _ s hs
      · simp only [List.mem_cons, List.not_mem_nil, or_false] at hs
        omega
    · show ((_ : List (String × ℕ)).map _).length = 6
      rw [List.length_map, List.length_zip, CHECK_LABELS_length]
      split <;> simp [score_trend_structure_length]
  case E =>
    constructor
    · apply zip_mk_le
      intro s hs
      split at hs
      · exact score_environment_le _ _ _ _ _ s hs
      · simp only [List.mem_cons, List.not_mem_nil, or_false] at hs
        omega
    · show ((_ : List (String × ℕ)).map _).length = 6
      rw [List.length_map, List.length_zip, CHECK_LABELS_length]
      split <;> simp [score_environment_length]
  case C =>
    constructor
    · apply zip_mk_le
      intro s hs
      simp only [List.mem_cons, List.not_mem_nil, or_false] at hs
      omega
    · rfl
  case F =>
    constructor
    · apply zip_mk_le
      intro s hs
      simp only [List.mem_cons, List.not_mem_nil, or_false] at hs
      omega
    · rfl

/-- The external aggregation contract of spec section 6 for the engine rows:
a category total is the sum of its six check scores. -/
def checksTotal (cs : List CheckScore) : ℕ := (cs.map (·.score)).sum

/-- The external aggregation contract for an engine row: the row total is
the sum of the six category totals. -/
def rowTotal (r : RowDict) : ℕ := (catKeys.map (fun k => checksTotal (r.categories k))).sum

/-- Destructuring a successful `Except` bind. -/
theorem except_bind_ok {α β : Type} {x : Except Unit α} {f : α → Except Unit β} {out : β}
    (h : x >>= f = .ok out) : ∃ a, x = .ok a ∧ f a = .ok out := by
  cases x with
  | error e => exact Except.noConfusion h
  | ok a => exact ⟨a, rfl, h⟩

/-- The clamped score of one raw check is always in [0, 2]. -/
theorem scoreOf_bounds (sc : Option RawScore) : 0 ≤ scoreOf sc ∧ scoreOf sc ≤ 2 := by
  rw [scoreOf]
  cases sc.getD (.num 0) <;> dsimp only <;> omega

/-- Whenever `buildChecks` succeeds, it emits one check per label, carrying
exactly the given labels, with every score clamped into [0, 2]. -/
theorem buildChecks_ok_props : ∀ (labels : List String) (cjs : List RawCheck) (out : List Check),
    buildChecks labels cjs = .ok out →
    out.length = labels.length ∧ out.map (·.label) = labels ∧
    ∀ c ∈ out, 0 ≤ c.score ∧ c.score ≤ 2 := by
  intro labels
  induction labels with
  | nil =>
    intro cjs out h
    cases cjs <;> simp only [buildChecks, Except.ok.injEq] at h <;> subst h <;> simp
  | cons lab labs ih =>
    intro cjs out h
    cases cjs with
    | nil =>
      rw [buildChecks] at h
      obtain ⟨rest, hrest, hout⟩ := except_bind_ok h
      simp only [Except.ok.injEq] at hout
      subst hout
      obtain ⟨h1, h2, h3⟩ := ih [] rest hrest
      refine ⟨by simp [h1], by simp [h2], ?_⟩
      intro c hc
      rcases List.mem_cons.mp hc with rfl | hc
      · exact ⟨le_refl 0, by norm_num⟩
      · exact h3 c hc
    | cons cj cjs' =>
      cases cj with
      | notDict => simp [buildChecks] at h
      | obj sc =>
        rw [buildChecks] at h
        obtain ⟨rest, hrest, hout⟩ := except_bind_ok h
        simp only [Except.ok.injEq] at hout
        subst hout
        obtain ⟨h1, h2, h3⟩ := ih cjs' rest hrest
        refine ⟨by simp [h1], by simp [h2], ?_⟩
        intro c hc
        rcases List.mem_cons.mp hc with rfl | hc
        · exact scoreOf_bounds sc
        · exact h3 c hc

/-- A successful `build_sector_from_json` run is six successful `buildChecks`
runs assembled into a row. -/
theorem build_sector_ok {item : RawItem} {row : SectorRow}
    (h : build_sector_from_json item = .ok row) :
    ∃ cA cB cC cD cE cF,
      buildChecks (CHECK_LABELS .A) ((item.categories .A).getD ⟨[]⟩).checks = .ok cA ∧
      buildChecks (CHECK_LABELS .B) ((item.categories .B).getD ⟨[]⟩).checks = .ok cB ∧
      buildChecks (CHECK_LABELS .C) ((item.categories .C).getD ⟨[]⟩).checks = .ok cC ∧
      buildChecks (CHECK_LABELS .D) ((item.categories .D).getD ⟨[]⟩).checks = .ok cD ∧
      buildChecks (CHECK_LABELS .E) ((item.categories .E).getD ⟨[]⟩).checks = .ok cE ∧
      buildChecks (CHECK_LABELS .F) ((item.categories .F).getD ⟨[]⟩).checks = .ok cF ∧
      row = ⟨item.symbol.getD "?", fun k =>
        match k with
        | .A => ⟨.A, cA⟩
        | .B => ⟨.B, cB⟩
        | .C => ⟨.C, cC⟩
        | .D => ⟨.D, cD⟩
        | .E => ⟨.E, cE⟩
        | .F => ⟨.F, cF⟩⟩ := by
  rw [build_sector_from_json] at h
  obtain ⟨cA, hA, h⟩ := except_bind_ok h
  obtain ⟨cB, hB, h⟩ := except_bind_ok h
  obtain ⟨cC, hC, h⟩ := except_bind_ok h
  obtain ⟨cD, hD, h⟩ := except_bind_ok h
  obtain ⟨cE, hE, h⟩ := except_bind_ok h
  obtain ⟨cF, hF, h⟩ := except_bind_ok h
  simp only [Except.ok.injEq] at h
  exact ⟨cA, cB, cC, cD, cE, cF, hA, hB, hC, hD, hE, hF, h.symm⟩

/-- A category whose six checks lie in [0, 2] totals within [0, 12]. -/
theorem Category_total_bounds (cat : Category)
    (h : ∀ c ∈ cat.checks, 0 ≤ c.score ∧ c.score ≤ 2) (hl : cat.checks.length = 6) :
    0 ≤ cat.total ∧ cat.total ≤ 12 := by
  have hs := sum_bounds_int 2 (cat.checks.map (·.score)) (by
    intro x hx
    rcases List.mem_map.mp hx with ⟨c, hc, rfl⟩
    exact h c hc)
  rw [List.length_map, hl] at hs
  rw [Category.total]
  omega

/-- A row whose six category totals lie in [0, 12] totals within [0, 72]. -/
theorem SectorRow_total_bounds (row : SectorRow)
    (h : ∀ k, 0 ≤ (row.categories k).total ∧ (row.categories k).total ≤ 12) :
    0 ≤ row.total ∧ row.total ≤ 72 := by
  have hs := sum_bounds_int 12 (catKeys.map (fun k => (row.categories k).total)) (by
    intro x hx
    rcases List.mem_map.mp hx with ⟨k', -, rfl⟩
    exact h k')
  have hlen : (catKeys.map (fun k => (row.categories k).total)).length = 6 := by
    rw [List.length_map]; rfl
  rw [hlen] at hs
  rw [SectorRow.total]
  omega

/-- Claim C5: every row produced by `compute_scores` and every row
reconstructed by `build_sector_from_json` has all check scores in {0,1,2},
all category totals in [0,12] and its row total in [0,72] (the totals use
the aggregation contract of spec section 6: sums of checks and of category
totals). -/
theorem C5_score_invariants :
    (∀ (sectors : List String) (data : String → Frame) (r : RowDict),
      r ∈ compute_scores sectors data → ∀ k : CatKey,
      (∀ c ∈ r.categories k, c.score = 0 ∨ c.score = 1 ∨ c.score = 2) ∧
      checksTotal (r.categories k) ≤ 12 ∧ rowTotal r ≤ 72) ∧
    (∀ (item : RawItem) (row : SectorRow),
      build_sector_from_json item = .ok row → ∀ k : CatKey,
      (∀ c ∈ (row.categories k).checks, c.score = 0 ∨ c.score = 1 ∨ c.score = 2) ∧
      0 ≤ (row.categories k).total ∧ (row.categories k).total ≤ 12 ∧
      0 ≤ row.total ∧ row.total ≤ 72) := by
  have hcatN : ∀ (data : String → Frame) spy vix ranks sym k,
      checksTotal ((scoreRow data spy vix ranks sym).categories k) ≤ 12 := by
    intro data spy vix ranks sym k
    obtain ⟨hb, hl⟩ := scoreRow_cat data spy vix ranks sym k
    rw [checksTotal]
    calc (((scoreRow data spy vix ranks sym).categories k).map (·.score)).sum ≤
        2 * (((scoreRow data spy vix ranks sym).categories k).map (·.score)).length := by
          refine sum_le_nat 2 _ ?_
          intro x hx
          rcases List.mem_map.mp hx with ⟨c, hc, rfl⟩
          exact hb c hc
    _ = 12 := by rw [List.length_map, hl]
  constructor
  · intro sectors data r hr k
    simp only [compute_scores] at hr
    rcases List.mem_map.mp hr with ⟨sym, -, rfl⟩
    obtain ⟨hb, hl⟩ := scoreRow_cat data (get_close (data "SPY")) (get_close (data "^VIX"))
      (sector_ranks sectors data) sym k
    refine ⟨fun c hc => by have := hb c hc; omega, hcatN _ _ _ _ _ _, ?_⟩
    rw [rowTotal]
    calc ((catKeys.map (fun k' => checksTotal ((scoreRow data (get_close (data "SPY"))
          (get_close (data "^VIX")) (sector_ranks sectors data) sym).categories k'))).sum) ≤
        12 * (catKeys.map (fun k' => checksTotal ((scoreRow data (get_close (data "SPY"))
          (get_close (data "^VIX")) (sector_ranks sectors data) sym).categories k'))).length := by
          refine sum_le_nat 12 _ ?_
          intro x hx
          rcases List.mem_map.mp hx with ⟨k', -, rfl⟩
          exact hcatN _ _ _ _ _ _
    _ = 72 := by rw [List.length_map]; rfl
  · intro item row h k
    obtain ⟨cA, cB, cC, cD, cE, cF, hA, hB, hC, hD, hE, hF, hrow⟩ := build_sector_ok h
    subst hrow
    have hbnds : ∀ k' : CatKey,
        (∀ c ∈ (({ symbol := item.symbol.getD "?", categories := fun k'' =>
          match k'' with
          | CatKey.A => (⟨CatKey.A, cA⟩ : Category)
          | CatKey.B => ⟨CatKey.B, cB⟩
          | CatKey.C => ⟨CatKey.C, cC⟩
          | CatKey.D => ⟨CatKey.D, cD⟩
          | CatKey.E => ⟨CatKey.E, cE⟩
          | CatKey.F => ⟨CatKey.F, cF⟩ } : SectorRow).categories k').checks,
            0 ≤ c.score ∧ c.score ≤ 2) ∧
        (({ symbol := item.symbol.getD "?", categories := fun k'' =>
          match k'' with
          | CatKey.A => (⟨CatKey.A, cA⟩ : Category)
          | CatKey.B => ⟨CatKey.B, cB⟩
          | CatKey.C => ⟨CatKey.C, cC⟩
          | CatKey.D => ⟨CatKey.D, cD⟩
          | CatKey.E => ⟨CatKey.E, cE⟩
          | CatKey.F => ⟨CatKey.F, cF⟩ } : SectorRow).categories k').checks.length = 6 := by
      intro k'
      cases k'
      case A => exact ⟨(buildChecks_ok_props _ _ _ hA).2.2,
        by rw [show ((⟨CatKey.A, cA⟩ : Category)).checks = cA from rfl,
          (buildChecks_ok_props _ _ _ hA).1, CHECK_LABELS_length]⟩
      case B => exact ⟨(buildChecks_ok_props _ _ _ hB).2.2,
        by rw [show ((⟨CatKey.B, cB⟩ : Category)).checks = cB from rfl,
          (buildChecks_ok_props _ _ _ hB).1, CHECK_LABELS_length]⟩
      case C => exact ⟨(buildChecks_ok_props _ _ _ hC).2.2,
        by rw [show ((⟨CatKey.C, cC⟩ : Category)).checks = cC from rfl,
          (buildChecks_ok_props _ _ _ hC).1, CHECK_LABELS_length]⟩
      case D => exact ⟨(buildChecks_ok_props _ _ _ hD).2.2,
        by rw [show ((⟨CatKey.D, cD⟩ : Category)).checks = cD from rfl,
          (buildChecks_ok_props _ _ _ hD).1, CHECK_LABELS_length]⟩
      case E => exact ⟨(buildChecks_ok_props _ _ _ hE).2.2,
        by rw [show ((⟨CatKey.E, cE⟩ : Category)).checks = cE from rfl,
          (buildChecks_ok_props _ _ _ hE).1, CHECK_LABELS_length]⟩
      case F => exact ⟨(buildChecks_ok_props _ _ _ hF).2.2,
        by rw [show ((⟨CatKey.F, cF⟩ : Category)).checks = cF from rfl,
          (buildChecks_ok_props _ _ _ hF).1, CHECK_LABELS_length]⟩
    have htot := fun k' => Category_total_bounds _ (hbnds k').1 (hbnds k').2
    refine ⟨fun c hc => by have := (hbnds k).1 c hc; omega, (htot k).1, (htot k).2,
      (SectorRow_total_bounds _ htot).1, (SectorRow_total_bounds _ htot).2⟩

/-- Witness for C5: the Category A total of the row for a symbol with no
data is within [0, 12]. -/
theorem C5_score_invariants_witness :
    checksTotal (((compute_scores ["XLK"] (fun _ => [])).get
      ⟨0, by simp [compute_scores]⟩).categories CatKey.A) ≤ 12 :=
  (C5_score_invariants.1 ["XLK"] (fun _ => []) _ (List.get_mem _ _ _) CatKey.A).2.1

/-- Reading back a serialized check list succeeds and preserves the scores,
as long as there is one check per label with a score already in [0, 2] (the
clamp is then the identity). -/
theorem buildChecks_payload : ∀ (labels : List String) (cs : List Check),
    labels.length = cs.length → (∀ c ∈ cs, 0 ≤ c.score ∧ c.score ≤ 2) →
    ∃ out, buildChecks labels (cs.map (fun c => .obj (some (.num c.score)))) = .ok out ∧
      out.map (·.score) = cs.map (·.score) := by
  intro labels
  induction labels with
  | nil =>
    intro cs hlen hb
    rw [List.length_nil, eq_comm, List.length_eq_zero] at hlen
    subst hlen
    exact ⟨[], rfl, rfl⟩
  | cons lab labs ih =>
    intro cs hlen hb
    cases cs with
    | nil => simp at hlen
    | cons c cs' =>
      have hc := hb c (List.mem_cons_self c cs')
      have hsc : scoreOf (some (.num c.score)) = c.score := by
        rw [scoreOf]
        dsimp only [Option.getD]
        omega
      obtain ⟨out', hout', hmap⟩ := ih cs' (by simpa using hlen)
        (fun d hd => hb d (List.mem_cons_of_mem c hd))
      refine ⟨⟨lab, scoreOf (some (.num c.score))⟩ :: out', ?_, ?_⟩
      · rw [List.map_cons, buildChecks, hout']
        rfl
      · simp [hsc, hmap]

/-- Claim C9 (the serializer is modelled from the spec's payload format;
`toPayload` above): serializing a well-formed SectorRow (six checks per
category, scores in {0,1,2} as the data model requires) to the output
payload and reconstructing it with `build_sector_from_json` succeeds and
gives identical category totals for each of the six categories and an
identical row total. -/
theorem C9_roundtrip (r : SectorRow)
    (hlen : ∀ k, ((r.categories k).checks).length = 6)
    (hsc : ∀ k, ∀ c ∈ (r.categories k).checks, 0 ≤ c.score ∧ c.score ≤ 2) :
    ∃ r2, build_sector_from_json (toPayload r) = .ok r2 ∧
      (∀ k, (r2.categories k).total = (r.categories k).total) ∧
      r2.total = r.total := by
  obtain ⟨oA, hA, hsA⟩ := buildChecks_payload (CHECK_LABELS .A) (r.categories .A).checks
    (by rw [CHECK_LABELS_length, hlen]) (hsc .A)
  obtain ⟨oB, hB, hsB⟩ := buildChecks_payload (CHECK_LABELS .B) (r.categories .B).checks
    (by rw [CHECK_LABELS_length, hlen]) (hsc .B)
  obtain ⟨oC, hC, hsC⟩ := buildChecks_payload (CHECK_LABELS .C) (r.categories .C).checks
    (by rw [CHECK_LABELS_length, hlen]) (hsc .C)
  obtain ⟨oD, hD, hsD⟩ := buildChecks_payload (CHECK_LABELS .D) (r.categories .D).checks
    (by rw [CHECK_LABELS_length, hlen]) (hsc .D)
  obtain ⟨oE, hE, hsE⟩ := buildChecks_payload (CHECK_LABELS .E) (r.categories .E).checks
    (by rw [CHECK_LABELS_length, hlen]) (hsc .E)
  obtain ⟨oF, hF, hsF⟩ := buildChecks_payload (CHECK_LABELS .F) (r.categories .F).checks
    (by rw [CHECK_LABELS_length, hlen]) (hsc .F)
  have htot : ∀ k : CatKey, Category.total (match k with
      | CatKey.A => (⟨CatKey.A, oA⟩ : Category)
      | CatKey.B => ⟨CatKey.B, oB⟩
      | CatKey.C => ⟨CatKey.C, oC⟩
      | CatKey.D => ⟨CatKey.D, oD⟩
      | CatKey.E => ⟨CatKey.E, oE⟩
      | CatKey.F => ⟨CatKey.F, oF⟩) = (r.categories k).total := by
    intro k
    cases k
    case A => show (oA.map (·.score)).sum = (r.categories CatKey.A).total; rw [hsA]; rfl
    case B => show (oB.map (·.score)).sum = (r.categories CatKey.B).total; rw [hsB]; rfl
    case C => show (oC.map (·.score)).sum = (r.categories CatKey.C).total; rw [hsC]; rfl
    case D => show (oD.map (·.score)).sum = (r.categories CatKey.D).total; rw [hsD]; rfl
    case E => show (oE.map (·.score)).sum = (r.categories CatKey.E).total; rw [hsE]; rfl
    case F => show (oF.map (·.score)).sum = (r.categories CatKey.F).total; rw [hsF]; rfl
  refine ⟨⟨r.symbol, fun k =>
      match k with
      | .A => ⟨.A, oA⟩
      | .B => ⟨.B, oB⟩
      | .C => ⟨.C, oC⟩
      | .D => ⟨.D, oD⟩
      | .E => ⟨.E, oE⟩
      | .F => ⟨.F, oF⟩⟩, ?_, ?_, ?_⟩
  · rw [build_sector_from_json]
    show (buildChecks (CHECK_LABELS .A) ((r.categories .A).checks.map
      (fun c => .obj (some (.num c.score)))) >>= _) = _
    rw [hA]
    show (buildChecks (CHECK_LABELS .B) ((r.categories .B).checks.map
      (fun c => .obj (some (.num c.score)))) >>= _) = _
    rw [hB]
    show (buildChecks (CHECK_LABELS .C) ((r.categories .C).checks.map
      (fun c => .obj (some (.num c.score)))) >>= _) = _
    rw [hC]
    show (buildChecks (CHECK_LABELS .D) ((r.categories .D).checks.map
      (fun c => .obj (some (.num c.score)))) >>= _) = _
    rw [hD]
    show (buildChecks (CHECK_LABELS .E) ((r.categories .E).checks.map
      (fun c => .obj (some (.num c.score)))) >>= _) = _
    rw [hE]
    show (buildChecks (CHECK_LABELS .F) ((r.categories .F).checks.map
      (fun c => .obj (some (.num c.score)))) >>= _) = _
    rw [hF]
    rfl
  · exact fun k => htot k
  · rw [SectorRow.total, SectorRow.total]
    exact congrArg List.sum (List.map_congr_left (fun k _ => htot k))

/-- Witness for C9: a concrete well-formed row round-trips with equal
totals. -/
theorem C9_roundtrip_witness :
    ∃ r2, build_sector_from_json (toPayload (⟨"XLK", fun _ =>
        ⟨CatKey.A, [⟨"a", 0⟩, ⟨"b", 1⟩, ⟨"c", 2⟩, ⟨"d", 1⟩, ⟨"e", 0⟩, ⟨"f", 2⟩]⟩⟩ :
        SectorRow)) = .ok r2 ∧
      (∀ k, (r2.categories k).total = ((⟨"XLK", fun _ =>
        ⟨CatKey.A, [⟨"a", 0⟩, ⟨"b", 1⟩, ⟨"c", 2⟩, ⟨"d", 1⟩, ⟨"e", 0⟩, ⟨"f", 2⟩]⟩⟩ :
        SectorRow).categories k).total) ∧
      r2.total = (⟨"XLK", fun _ =>
        ⟨CatKey.A, [⟨"a", 0⟩, ⟨"b", 1⟩, ⟨"c", 2⟩, ⟨"d", 1⟩, ⟨"e", 0⟩, ⟨"f", 2⟩]⟩⟩ :
        SectorRow).total :=
  C9_roundtrip _ (fun _ => rfl) (fun k => by cases k <;> decide)

/-- A payload item matching C10's hypothesis (its `categories` value is a
dict of nodes with list-valued `checks`) whose A-node checks list contains a
non-dict element. -/
def badItem : RawItem :=
  ⟨none, fun k => if k = .A then some ⟨[.notDict]⟩ else none⟩

/-- Counterexample to claim C10: on `badItem` the function raises
(`checks_json[0].get("score", 0)` raises `AttributeError`, which the source
catches nowhere), so it is not total on the claimed input family. -/
theorem C10_counterexample : build_sector_from_json badItem = .error () := rfl

/-- Given dict entries in the read positions (the first `labels.length`
entries of the raw list - later entries are never read), buildChecks
succeeds. -/
theorem buildChecks_exists : ∀ (labels : List String) (cjs : List RawCheck),
    (∀ cj ∈ cjs.take labels.length, cj ≠ .notDict) →
    ∃ out, buildChecks labels cjs = .ok out := by
  intro labels
  induction labels with
  | nil =>
    intro cjs hok
    cases cjs <;> exact ⟨[], rfl⟩
  | cons lab labs ih =>
    intro cjs hok
    cases cjs with
    | nil =>
      obtain ⟨rest, hrest⟩ := ih [] (by intro cj h; simp at h)
      exact ⟨⟨lab, 0⟩ :: rest, by rw [buildChecks, hrest]; rfl⟩
    | cons cj cjs' =>
      rw [List.length_cons, List.take_succ_cons] at hok
      cases cj with
      | notDict => exact absurd rfl (hok .notDict (List.mem_cons_self _ _))
      | obj sc =>
        obtain ⟨rest, hrest⟩ := ih cjs' (fun d hd => hok d (List.mem_cons_of_mem _ hd))
        exact ⟨⟨lab, scoreOf sc⟩ :: rest, by rw [buildChecks, hrest]; rfl⟩

/-- The score that `build_sector_from_json` assigns at one check position,
as a function of the raw entry there: a dict entry gets its clamped
(or defaulted) score, and a position past the end of the raw list gets 0. -/
def rawScoreAt : Option RawCheck → ℤ
  | some (.obj sc) => scoreOf sc
  | some .notDict => 0
  | none => 0

/-- Position-wise characterization of a successful `buildChecks` run. -/
theorem buildChecks_get : ∀ (labels : List String) (cjs : List RawCheck) (out : List Check),
    buildChecks labels cjs = .ok out → ∀ i, i < labels.length →
    out.get? i = some ⟨labels.getD i "", rawScoreAt (cjs.get? i)⟩ := by
  intro labels
  induction labels with
  | nil =>
    intro cjs out h i hi
    exact absurd hi (by simp)
  | cons lab labs ih =>
    intro cjs out h i hi
    cases cjs with
    | nil =>
      rw [buildChecks] at h
      obtain ⟨rest, hrest, hout⟩ := except_bind_ok h
      simp only [Except.ok.injEq] at hout
      subst hout
      cases i with
      | zero => rfl
      | succ n =>
        have := ih [] rest hrest n (by simpa using hi)
        simpa using this
    | cons cj cjs' =>
      cases cj with
      | notDict => simp [buildChecks] at h
      | obj sc =>
        rw [buildChecks] at h
        obtain ⟨rest, hrest, hout⟩ := except_bind_ok h
        simp only [Except.ok.injEq] at hout
        subst hout
        cases i with
        | zero => rfl
        | succ n =>
          have := ih cjs' rest hrest n (by simpa using hi)
          simpa using this

/-- Claim C10 amended: on every input whose `categories` value, when
present, is a dict of category nodes with list-valued `checks` AND whose
read check entries (only the first six of each list - later entries are
never read) are themselves dicts, `build_sector_from_json` returns a row
with exactly six categories A-F, each with the six canonical labels in
order, each score forced into {0,1,2}: a present dict entry contributes
`max(0, min(2, int(raw)))` with non-numeric raws becoming 0 (`rawScoreAt`),
and missing positions score 0.  Without the dict-entry condition on the
read positions the function can raise (`C10_counterexample`). -/
theorem C10_build_total (item : RawItem)
    (hdict : ∀ k, ∀ cj ∈ (((item.categories k).getD ⟨[]⟩).checks.take 6),
      cj ≠ RawCheck.notDict) :
    ∃ row, build_sector_from_json item = .ok row ∧
      row.symbol = item.symbol.getD "?" ∧
      ∀ k : CatKey,
        (row.categories k).checks.length = 6 ∧
        (row.categories k).checks.map (·.label) = CHECK_LABELS k ∧
        (∀ c ∈ (row.categories k).checks, 0 ≤ c.score ∧ c.score ≤ 2) ∧
        (∀ i, i < 6 → (row.categories k).checks.get? i =
          some ⟨(CHECK_LABELS k).getD i "",
                rawScoreAt (((item.categories k).getD ⟨[]⟩).checks.get? i)⟩) := by
  obtain ⟨cA, hA⟩ := buildChecks_exists (CHECK_LABELS .A) _
    (by rw [CHECK_LABELS_length]; exact hdict .A)
  obtain ⟨cB, hB⟩ := buildChecks_exists (CHECK_LABELS .B) _
    (by rw [CHECK_LABELS_length]; exact hdict .B)
  obtain ⟨cC, hC⟩ := buildChecks_exists (CHECK_LABELS .C) _
    (by rw [CHECK_LABELS_length]; exact hdict .C)
  obtain ⟨cD, hD⟩ := buildChecks_exists (CHECK_LABELS .D) _
    (by rw [CHECK_LABELS_length]; exact hdict .D)
  obtain ⟨cE, hE⟩ := buildChecks_exists (CHECK_LABELS .E) _
    (by rw [CHECK_LABELS_length]; exact hdict .E)
  obtain ⟨cF, hF⟩ := buildChecks_exists (CHECK_LABELS .F) _
    (by rw [CHECK_LABELS_length]; exact hdict .F)
  refine ⟨⟨item.symbol.getD "?", fun k =>
      match k with
      | .A => ⟨.A, cA⟩
      | .B => ⟨.B, cB⟩
      | .C => ⟨.C, cC⟩
      | .D => ⟨.D, cD⟩
      | .E => ⟨.E, cE⟩
      | .F => ⟨.F, cF⟩⟩, ?_, rfl, ?_⟩
  · rw [build_sector_from_json, hA]
    show (buildChecks (CHECK_LABELS .B) _ >>= _) = _
    rw [hB]
    show (buildChecks (CHECK_LABELS .C) _ >>= _) = _
    rw [hC]
    show (buildChecks (CHECK_LABELS .D) _ >>= _) = _
    rw [hD]
    show (buildChecks (CHECK_LABELS .E) _ >>= _) = _
    rw [hE]
    show (buildChecks (CHECK_LABELS .F) _ >>= _) = _
    rw [hF]
    rfl
  · intro k
    cases k
    case A => exact ⟨by rw [(buildChecks_ok_props _ _ _ hA).1, CHECK_LABELS_length],
      (buildChecks_ok_props _ _ _ hA).2.1, (buildChecks_ok_props _ _ _ hA).2.2,
      fun i hi => buildChecks_get _ _ _ hA i (by rw [CHECK_LABELS_length]; exact hi)⟩
    case B => exact ⟨by rw [(buildChecks_ok_props _ _ _ hB).1, CHECK_LABELS_length],
      (buildChecks_ok_props _ _ _ hB).2.1, (buildChecks_ok_props _ _ _ hB).2.2,
      fun i hi => buildChecks_get _ _ _ hB i (by rw [CHECK_LABELS_length]; exact hi)⟩
    case C => exact ⟨by rw [(buildChecks_ok_props _ _ _ hC).1, CHECK_LABELS_length],
      (buildChecks_ok_props _ _ _ hC).2.1, (buildChecks_ok_props _ _ _ hC).2.2,
      fun i hi => buildChecks_get _ _ _ hC i (by rw [CHECK_LABELS_length]; exact hi)⟩
    case D => exact ⟨by rw [(buildChecks_ok_props _ _ _ hD).1, CHECK_LABELS_length],
      (buildChecks_ok_props _ _ _ hD).2.1, (buildChecks_ok_props _ _ _ hD).2.2,
      fun i hi => buildChecks_get _ _ _ hD i (by rw [CHECK_LABELS_length]; exact hi)⟩
    case E => exact ⟨by rw [(buildChecks_ok_props _ _ _ hE).1, CHECK_LABELS_length],
      (buildChecks_ok_props _ _ _ hE).2.1, (buildChecks_ok_props _ _ _ hE).2.2,
      fun i hi => buildChecks_get _ _ _ hE i (by rw [CHECK_LABELS_length]; exact hi)⟩
    case F => exact ⟨by rw [(buildChecks_ok_props _ _ _ hF).1, CHECK_LABELS_length],
      (buildChecks_ok_props _ _ _ hF).2.1, (buildChecks_ok_props _ _ _ hF).2.2,
      fun i hi => buildChecks_get _ _ _ hF i (by rw [CHECK_LABELS_length]; exact hi)⟩

/-- A concrete payload item for the C10 witness: an A-node with an
out-of-range score, a non-numeric score, a score-less dict, three in-range
dicts, and a seventh, non-dict entry that sits past the six read positions
(the source never reads it and succeeds); the other categories are absent. -/
def witnessItem : RawItem :=
  ⟨some "XLK", fun k =>
    if k = .A then some ⟨[.obj (some (.num 5)), .obj (some .nonNum), .obj none,
      .obj (some (.num 0)), .obj (some (.num 1)), .obj (some (.num 2)),
      .notDict]⟩ else none⟩

/-- Witness for the amended C10 at `witnessItem`. -/
theorem C10_build_total_witness :
    ∃ row, build_sector_from_json witnessItem = .ok row ∧
      row.symbol = witnessItem.symbol.getD "?" ∧
      ∀ k : CatKey,
        (row.categories k).checks.length = 6 ∧
        (row.categories k).checks.map (·.label) = CHECK_LABELS k ∧
        (∀ c ∈ (row.categories k).checks, 0 ≤ c.score ∧ c.score ≤ 2) ∧
        (∀ i, i < 6 → (row.categories k).checks.get? i =
          some ⟨(CHECK_LABELS k).getD i "",
                rawScoreAt (((witnessItem.categories k).getD ⟨[]⟩).checks.get? i)⟩) :=
  C10_build_total witnessItem (fun k => by cases k <;> decide)

end MarketHealth
